import Mathlib

/-!
Verification development for the lwthread cooperative threading runtime.

The definitions below are a shallow embedding of the C sources:
  - QState and the lwt_queue_* functions embed src/queue.c (the intrusive
    FIFO: each task carries its own forward link, the queue holds head,
    tail and a count);
  - Sched and the lwt_* state functions embed the critical sections of
    src/lwthread.c, src/thread.c and src/scheduler.c (every state
    mutation those files perform while holding the scheduler mutex);
  - Step and Reach form the transition system generated by those
    critical sections, used to prove the ready-queue invariants.

Tasks are identified by their address in C; here a TaskId plays that
role.  Machine ints that can only hold small non-negative values are
modelled as Nat; the C int worker id and counts are modelled as Int
where the sign matters.
-/

abbrev TaskId := Nat

/-- Thread states, from the lwt_state_t enum in src/thread.h. -/
inductive LwtState
  | NEW
  | READY
  | RUNNING
  | BLOCKED
  | FINISHED
deriving DecidableEq, Repr

/-! ## Ready queue: src/queue.c

The C queue is intrusive: struct lwt_thread carries its own next
pointer.  QState keeps the next pointers of all tasks as one map
together with the queue's head, tail and count fields, exactly the
data lwt_queue_push_locked and lwt_queue_pop_locked read and write. -/

structure QState where
  next : TaskId → Option TaskId
  head : Option TaskId
  tail : Option TaskId
  count : Int

/-- lwt_queue_init: head, tail NULL, count 0 (next pointers of tasks are
irrelevant until a task is pushed; memset-zero gives NULL). -/
def lwt_queue_init_q : QState :=
  { next := fun _ => none, head := none, tail := none, count := 0 }

/-- lwt_queue_push_locked: thread->next = NULL; if tail NULL then
head = tail = thread else tail->next = thread, tail = thread; count++. -/
def lwt_queue_push_locked (q : QState) (t : TaskId) : QState :=
  let nx := Function.update q.next t none
  match q.tail with
  | none => { next := nx, head := some t, tail := some t, count := q.count + 1 }
  | some tl =>
      { next := Function.update nx tl (some t), head := q.head, tail := some t,
        count := q.count + 1 }

/-- lwt_queue_pop_locked: if head NULL return NULL; else unlink the head:
head = thread->next; if head NULL then tail = NULL; thread->next = NULL;
count--. Returns the new queue and the popped task. -/
def lwt_queue_pop_locked (q : QState) : QState × Option TaskId :=
  match q.head with
  | none => (q, none)
  | some t =>
      let newHead := q.next t
      let newTail := match newHead with | none => none | some _ => q.tail
      ({ next := Function.update q.next t none, head := newHead, tail := newTail,
         count := q.count - 1 }, some t)

/-- lwt_queue_empty: returns 1 iff head is NULL (for a non-NULL queue). -/
def lwt_queue_empty (q : QState) : Int :=
  if q.head = none then 1 else 0

/-- lwt_queue_size: returns the count field (for a non-NULL queue). -/
def lwt_queue_size (q : QState) : Int :=
  q.count

/-- ChainList nx hd l holds when following the intrusive next pointers
from hd enumerates exactly the tasks of l and ends at NULL. -/
def ChainList (nx : TaskId → Option TaskId) : Option TaskId → List TaskId → Prop
  | none, [] => True
  | none, _ :: _ => False
  | some _, [] => False
  | some h, a :: rest => h = a ∧ ChainList nx (nx a) rest

/-- The list of tasks linked from hd, following next pointers with the
given amount of fuel. -/
def chainFrom (nx : TaskId → Option TaskId) : Nat → Option TaskId → List TaskId
  | 0, _ => []
  | _ + 1, none => []
  | fuel + 1, some t => t :: chainFrom nx fuel (nx t)

/-- QRepr q l: the queue q represents the task list l (head first). -/
def QRepr (q : QState) (l : List TaskId) : Prop :=
  ChainList q.next q.head l ∧ q.tail = l.getLast? ∧ q.count = (l.length : Int) ∧ l.Nodup

/-- Repeated pushes, in list order (first element pushed first). -/
def pushAll (q : QState) (ts : List TaskId) : QState :=
  ts.foldl lwt_queue_push_locked q

/-- Pop n times, collecting the returned tasks in order. -/
def drainN : QState → Nat → List TaskId × QState
  | q, 0 => ([], q)
  | q, n + 1 =>
      let p := lwt_queue_pop_locked q
      match p.2 with
      | some t => (t :: (drainN p.1 n).1, (drainN p.1 n).2)
      | none => ([], p.1)

/-! ## Scheduler state: src/scheduler.h, src/thread.h

Sched collects every piece of mutable state the runtime touches under
the scheduler mutex: the task records (state, joiner back-link, id),
the ready queue, the per-worker current slots, the worker id table,
the running flag and the next-id counter.  The ready queue is kept as
the task list it represents; the qrepr_push / qrepr_pop lemmas above
show that lwt_queue_push_locked appends to that list and
lwt_queue_pop_locked removes its head, so list append / head removal
is the exact effect of the queue calls the scheduler makes.  signals
and broadcasts count pthread_cond_signal / pthread_cond_broadcast
calls.  sleeping is ghost control state: it records that a task's
execution currently sits between the two critical sections of
lwt_sleep (inside the nanosleep call, off the scheduler mutex). -/

structure LwtTask where
  state : LwtState
  waiting : Option TaskId
  tid : Nat
deriving DecidableEq, Repr

structure Sched where
  tasks : TaskId → Option LwtTask
  queue : List TaskId
  running : Nat → Option TaskId
  workerIds : Nat → Nat
  numWorkers : Nat
  runningFlag : Bool
  nextId : Nat
  signals : Nat
  broadcasts : Nat
  sleeping : TaskId → Bool

def Sched.stateOf (s : Sched) (id : TaskId) : Option LwtState :=
  (s.tasks id).map LwtTask.state

def Sched.waitingOf (s : Sched) (id : TaskId) : Option TaskId :=
  (s.tasks id).bind LwtTask.waiting

/-- thread->state = st (a no-op on an unallocated id). -/
def Sched.setState (s : Sched) (id : TaskId) (st : LwtState) : Sched :=
  { s with tasks := fun j =>
      if j = id then (s.tasks id).map (fun t => { t with state := st }) else s.tasks j }

/-- thread->waiting = w. -/
def Sched.setWaiting (s : Sched) (id : TaskId) (w : Option TaskId) : Sched :=
  { s with tasks := fun j =>
      if j = id then (s.tasks id).map (fun t => { t with waiting := w }) else s.tasks j }

/-- lwt_queue_push_locked on the scheduler's ready queue (list view). -/
def Sched.pushReady (s : Sched) (id : TaskId) : Sched :=
  { s with queue := s.queue ++ [id] }

/-- scheduler->running[w] = NULL. -/
def Sched.clearRunning (s : Sched) (w : Nat) : Sched :=
  { s with running := Function.update s.running w none }

/-- scheduler->running[w] = thread. -/
def Sched.setRunning (s : Sched) (w : Nat) (id : TaskId) : Sched :=
  { s with running := Function.update s.running w (some id) }

/-- pthread_cond_signal(&scheduler->cond). -/
def Sched.signalCond (s : Sched) : Sched :=
  { s with signals := s.signals + 1 }

/-- Ghost update for the sleep control state. -/
def Sched.setSleeping (s : Sched) (id : TaskId) (b : Bool) : Sched :=
  { s with sleeping := Function.update s.sleeping id b }

/-- Replace the ready-queue contents (used for the pop in dispatch). -/
def Sched.setQueue (s : Sched) (q : List TaskId) : Sched :=
  { s with queue := q }

/-! ## Scheduler lifecycle: src/scheduler.c, src/lwthread.c -/

def LWT_MAX_WORKERS : Int := 64

/-- lwt_scheduler_init: validates 0 < n <= LWT_MAX_WORKERS, zeroes the
struct, sets num_workers, running_flag = 0, next_thread_id = 1, an
empty queue, and worker_ids[i] = i for i < n. -/
def lwt_scheduler_init_state (n : Int) : Option Sched :=
  if n ≤ 0 ∨ LWT_MAX_WORKERS < n then none
  else some
    { tasks := fun _ => none
      queue := []
      running := fun _ => none
      workerIds := fun i => if (i : Int) < n then i else 0
      numWorkers := n.toNat
      runningFlag := false
      nextId := 1
      signals := 0
      broadcasts := 0
      sleeping := fun _ => false }

/-- lwt_scheduler_create: validates 0 < n <= LWT_MAX_WORKERS then
delegates to lwt_scheduler_init (allocation assumed to succeed). -/
def lwt_scheduler_create_state (n : Int) : Option Sched :=
  if n ≤ 0 ∨ LWT_MAX_WORKERS < n then none
  else lwt_scheduler_init_state n

/-- lwt_scheduler_start: returns unchanged if already running, else
sets running_flag under the mutex (worker OS-thread creation has no
scheduler-state effect). -/
def lwt_scheduler_start_state (s : Sched) : Sched :=
  if s.runningFlag then s else { s with runningFlag := true }

/-- lwt_scheduler_stop: returns unchanged if not running, else clears
running_flag and broadcasts on the condition variable under the mutex
(then joins the workers, which has no scheduler-state effect). -/
def lwt_scheduler_stop_state (s : Sched) : Sched :=
  if s.runningFlag then { s with runningFlag := false, broadcasts := s.broadcasts + 1 }
  else s

/-! ## Task creation: src/thread.c lwt_thread_init, src/lwthread.c
lwt_create, src/scheduler.c lwt_scheduler_add_thread -/

/-- lwt_thread_init's scheduler-visible effect: a fresh task record in
state NEW with no joiner, whose id is drawn from next_thread_id++
under the scheduler mutex. -/
def lwt_thread_init_new (s : Sched) (id : TaskId) : Sched :=
  { s with
      tasks := fun j =>
        if j = id then some { state := LwtState.NEW, waiting := none, tid := s.nextId }
        else s.tasks j
      nextId := s.nextId + 1 }

/-- lwt_scheduler_add_thread: thread->state = READY, push the thread
on the ready queue, signal the condition variable. -/
def lwt_scheduler_add_thread_state (s : Sched) (id : TaskId) : Sched :=
  ((s.setState id LwtState.READY).pushReady id).signalCond

/-- lwt_create: lwt_thread_init then lwt_scheduler_add_thread. -/
def lwt_create_state (s : Sched) (id : TaskId) : Sched :=
  lwt_scheduler_add_thread_state (lwt_thread_init_new s id) id

/-! ## Worker dispatch: src/scheduler.c lwt_worker_function inner loop -/

/-- The dispatch step of the worker loop once the queue is non-empty:
pop the head task, set its state to RUNNING, record it in
running[id], then swap into it.  Returns the dispatched task. -/
def lwt_worker_dispatch (s : Sched) (w : Nat) : Sched × Option TaskId :=
  match s.queue with
  | [] => (s, none)
  | id :: rest => ((((s.setState id LwtState.RUNNING).setQueue rest).setRunning w id), some id)

/-! ## Cooperative primitives: src/lwthread.c -/

/-- lwt_yield.  cur is the thread-local current task (NULL outside any
task), w the thread-local worker id.  Returns the scheduler state after
the critical section and whether a context switch back to the worker's
dispatch context is performed. -/
def lwt_yield_state (s : Sched) (cur : Option TaskId) (w : Int) : Sched × Bool :=
  match cur with
  | none => (s, false)
  | some id =>
      if w < 0 ∨ (s.numWorkers : Int) ≤ w then (s, false)
      else
        let s1 := if s.stateOf id ≠ some LwtState.FINISHED
          then (s.setState id LwtState.READY).pushReady id else s
        (((s1.clearRunning w.toNat)).signalCond, true)

/-- lwt_join.  target is the joined thread (NULL checked first), cur
the thread-local current task, w the worker id. -/
def lwt_join_state (s : Sched) (target : Option TaskId) (cur : Option TaskId) (w : Int) :
    Sched × Bool :=
  match target with
  | none => (s, false)
  | some tgt =>
      match cur with
      | none => (s, false)
      | some self =>
          if w < 0 ∨ (s.numWorkers : Int) ≤ w then (s, false)
          else if s.stateOf tgt = some LwtState.FINISHED then (s, false)
          else ((((s.setState self LwtState.BLOCKED).setWaiting tgt (some self)).clearRunning
            w.toNat), true)

/-! ## Sleep: src/lwthread.c lwt_sleep -/

structure Timespec where
  sec : Nat
  nsec : Nat
deriving DecidableEq, Repr

/-- The absolute wake-time computation of lwt_sleep: wake = now, then
tv_sec += ms / 1000, tv_nsec += (ms % 1000) * 1000000, with one carry
if tv_nsec overflows a second. -/
def computeWakeTime (now : Timespec) (ms : Nat) : Timespec :=
  let s := now.sec + ms / 1000
  let n := now.nsec + (ms % 1000) * 1000000
  if 1000000000 ≤ n then { sec := s + 1, nsec := n - 1000000000 } else { sec := s, nsec := n }

/-- First critical section of lwt_sleep: thread->state = BLOCKED,
running[w] = NULL; release the mutex.  The ghost sleeping flag records
that the task's execution is now inside the nanosleep call. -/
def lwt_sleep_block (s : Sched) (id : TaskId) (w : Int) : Sched :=
  ((s.setState id LwtState.BLOCKED).clearRunning w.toNat).setSleeping id true

/-- Second critical section of lwt_sleep (after the wait): state =
READY, push on the ready queue, signal; then switch to the dispatch
context. -/
def lwt_sleep_wake (s : Sched) (id : TaskId) : Sched :=
  (((s.setState id LwtState.READY).pushReady id).signalCond).setSleeping id false

structure SleepResult where
  final : Sched
  duringWait : Option Sched
  osSleep : Bool
  wakeTime : Option Timespec
  switched : Bool

/-- lwt_sleep.  Outside any task it delegates to a plain nanosleep and
returns; inside a task it computes the wake time, runs the blocking
critical section, waits off the mutex (duringWait is the scheduler
state during that wait), then runs the wake critical section and
switches to the dispatch context. -/
def lwt_sleep_state (s : Sched) (cur : Option TaskId) (w : Int) (now : Timespec) (ms : Nat) :
    SleepResult :=
  match cur with
  | none => { final := s, duringWait := none, osSleep := true, wakeTime := none, switched := false }
  | some id =>
      if w < 0 ∨ (s.numWorkers : Int) ≤ w then
        { final := s, duringWait := none, osSleep := false, wakeTime := none, switched := false }
      else
        let sb := lwt_sleep_block s id w
        { final := lwt_sleep_wake sb id
          duringWait := some sb
          osSleep := false
          wakeTime := some (computeWakeTime now ms)
          switched := true }

/-! ## Entry trampoline: src/thread.c lwt_thread_start -/

/-- The post-entry part of lwt_thread_start, under the scheduler mutex:
thread->state = FINISHED; if there is a joiner, set it READY, push it
(lwt_queue_push_locked), clear the back-link, signal.  The trampoline
then calls lwt_yield, which is modelled separately. -/
def lwt_thread_start_finish (s : Sched) (id : TaskId) : Sched :=
  let s1 := s.setState id LwtState.FINISHED
  match s1.waitingOf id with
  | none => s1
  | some j => (((s1.setState j LwtState.READY).pushReady j).setWaiting id none).signalCond

/-! ## Failure-injected initialization models: src/thread.c
lwt_thread_init and src/scheduler.c lwt_scheduler_init.

These record which resources each function acquires and releases on
each control path, with the fallible system calls (malloc,
getcontext, pthread_mutex_init, pthread_cond_init, lwt_queue_init)
given as oracles. -/

structure ThreadInitRes where
  ret : Int
  stackAllocated : Bool
  stackFreed : Bool
deriving DecidableEq, Repr

/-- lwt_thread_init control paths: argument check; malloc of the
stack; getcontext (on failure the stack is freed and the function
returns -1); on success the context is prepared, the id assigned, and
0 returned with the stack owned by the task. -/
def lwt_thread_init_model (threadNull funcNull schedNull mallocOk getcontextOk : Bool) :
    ThreadInitRes :=
  if threadNull ∨ funcNull ∨ schedNull then { ret := -1, stackAllocated := false, stackFreed := false }
  else if mallocOk = false then { ret := -1, stackAllocated := false, stackFreed := false }
  else if getcontextOk = false then { ret := -1, stackAllocated := true, stackFreed := true }
  else { ret := 0, stackAllocated := true, stackFreed := false }

structure SchedInitRes where
  ret : Int
  queueInitDone : Bool
  queueDestroyed : Bool
  mutexInitDone : Bool
  mutexDestroyed : Bool
  condInitDone : Bool
deriving DecidableEq, Repr

/-- lwt_scheduler_init control paths: argument check; lwt_queue_init
(failure: nothing held); pthread_mutex_init (failure: queue
destroyed); pthread_cond_init (failure: mutex destroyed, queue
destroyed); success: everything initialized and held. -/
def lwt_scheduler_init_model (schedNull : Bool) (n : Int) (queueOk mutexOk condOk : Bool) :
    SchedInitRes :=
  if schedNull ∨ n ≤ 0 ∨ LWT_MAX_WORKERS < n then
    { ret := -1, queueInitDone := false, queueDestroyed := false,
      mutexInitDone := false, mutexDestroyed := false, condInitDone := false }
  else if queueOk = false then
    { ret := -1, queueInitDone := false, queueDestroyed := false,
      mutexInitDone := false, mutexDestroyed := false, condInitDone := false }
  else if mutexOk = false then
    { ret := -1, queueInitDone := true, queueDestroyed := true,
      mutexInitDone := false, mutexDestroyed := false, condInitDone := false }
  else if condOk = false then
    { ret := -1, queueInitDone := true, queueDestroyed := true,
      mutexInitDone := true, mutexDestroyed := true, condInitDone := false }
  else
    { ret := 0, queueInitDone := true, queueDestroyed := false,
      mutexInitDone := true, mutexDestroyed := false, condInitDone := true }

/-! ## The runtime's transition system.

One Step per critical section of the runtime.  Each constructor's
enabling hypotheses are the conditions under which that critical
section runs in the C program: a cooperative primitive is executed by
the task recorded in some worker's running slot (the thread-local
current task installed at dispatch), the worker loop dispatches only
while running_flag is set, with an idle slot, and when the queue is
non-empty, and the second half of lwt_sleep runs exactly for a task
whose execution is parked inside nanosleep (the ghost sleeping flag). -/

inductive Step : Sched → Sched → Prop
  | spawn (s : Sched) (id : TaskId) (hfree : s.tasks id = none) :
      Step s (lwt_create_state s id)
  | start (s : Sched) :
      Step s (lwt_scheduler_start_state s)
  | stop (s : Sched) :
      Step s (lwt_scheduler_stop_state s)
  | dispatch (s : Sched) (w : Nat) (hw : w < s.numWorkers) (hrun : s.runningFlag = true)
      (hidle : s.running w = none) :
      Step s (lwt_worker_dispatch s w).1
  | yieldStep (s : Sched) (w : Nat) (id : TaskId) (hw : w < s.numWorkers)
      (hcur : s.running w = some id) :
      Step s (lwt_yield_state s (some id) (w : Int)).1
  | joinStep (s : Sched) (w : Nat) (self tgt : TaskId) (hw : w < s.numWorkers)
      (hcur : s.running w = some self) (htgt : s.tasks tgt ≠ none) :
      Step s (lwt_join_state s (some tgt) (some self) (w : Int)).1
  | sleepBlock (s : Sched) (w : Nat) (id : TaskId) (hw : w < s.numWorkers)
      (hcur : s.running w = some id) :
      Step s (lwt_sleep_block s id (w : Int))
  | sleepWake (s : Sched) (id : TaskId) (hsl : s.sleeping id = true) :
      Step s (lwt_sleep_wake s id)
  | finish (s : Sched) (w : Nat) (id : TaskId) (hw : w < s.numWorkers)
      (hcur : s.running w = some id) :
      Step s (lwt_thread_start_finish s id)

/-- States reachable from a freshly initialized scheduler. -/
inductive Reach : Sched → Prop
  | init (n : Int) (s : Sched) (h : lwt_scheduler_init_state n = some s) : Reach s
  | step (s s' : Sched) (h : Reach s) (hs : Step s s') : Reach s'

/-- The scheduler invariant.  i1 is spec invariant I1 (a task is on the
ready queue iff its state is READY; in particular only allocated tasks
are queued) and nodup is spec property P2.  The remaining fields are
the auxiliary facts needed to push i1 and nodup through every step. -/
structure SchedInv (s : Sched) : Prop where
  i1 : ∀ id : TaskId, id ∈ s.queue ↔ s.stateOf id = some LwtState.READY
  nodup : s.queue.Nodup
  rstate : ∀ (w : Nat) (id : TaskId), s.running w = some id →
    s.stateOf id = some LwtState.RUNNING ∨ s.stateOf id = some LwtState.FINISHED
  rinj : ∀ (w1 w2 : Nat) (id : TaskId), s.running w1 = some id → s.running w2 = some id →
    w1 = w2
  wblocked : ∀ (u j : TaskId), s.waitingOf u = some j → s.stateOf j = some LwtState.BLOCKED
  wuniq : ∀ (u1 u2 j : TaskId), s.waitingOf u1 = some j → s.waitingOf u2 = some j → u1 = u2
  wnosleep : ∀ (u j : TaskId), s.waitingOf u = some j → s.sleeping j = false
  slblocked : ∀ id : TaskId, s.sleeping id = true → s.stateOf id = some LwtState.BLOCKED
  finw : ∀ id : TaskId, s.stateOf id = some LwtState.FINISHED → s.waitingOf id = none

/-! ## Legal queue histories (for the count invariant).

QReachL q l: q is reachable from lwt_queue_init by pushes and pops,
l being the sequence of queued tasks; a push respects the queue's
documented precondition that a task is never queued twice
(spec section 4.1, enforced by the callers through invariant I1). -/

inductive QReachL : QState → List TaskId → Prop
  | init : QReachL lwt_queue_init_q []
  | push (q : QState) (l : List TaskId) (t : TaskId) (h : QReachL q l) (ht : t ∉ l) :
      QReachL (lwt_queue_push_locked q t) (l ++ [t])
  | pop (q : QState) (l : List TaskId) (h : QReachL q l) :
      QReachL (lwt_queue_pop_locked q).1 l.tail

/-! ## Concrete states used by the witnesses. -/

/-- The scheduler produced by lwt_scheduler_init(1). -/
def schedOne : Sched :=
  { tasks := fun _ => none
    queue := []
    running := fun _ => none
    workerIds := fun i => if (i : Int) < 1 then i else 0
    numWorkers := (1 : Int).toNat
    runningFlag := false
    nextId := 1
    signals := 0
    broadcasts := 0
    sleeping := fun _ => false }

/-- A two-task scenario: task 0 is RUNNING on worker 0 with task 1
BLOCKED as its joiner; used to exercise the trampoline and join
theorems at a concrete input. -/
def schedTwo : Sched :=
  { tasks := fun j =>
      if j = 0 then some { state := LwtState.RUNNING, waiting := some 1, tid := 1 }
      else if j = 1 then some { state := LwtState.BLOCKED, waiting := none, tid := 2 }
      else none
    queue := []
    running := fun w => if w = 0 then some 0 else none
    workerIds := fun i => if (i : Int) < 1 then i else 0
    numWorkers := 1
    runningFlag := true
    nextId := 3
    signals := 0
    broadcasts := 0
    sleeping := fun _ => false }

/-! ## Ready-queue representation lemmas. -/

theorem chainList_none_iff_nil (nx : TaskId → Option TaskId) (hd : Option TaskId)
    (l : List TaskId) (h : ChainList nx hd l) : hd = none ↔ l = [] := by
  cases hd <;> cases l <;> simp_all [ChainList]

theorem chainList_head (nx : TaskId → Option TaskId) (hd : Option TaskId)
    (l : List TaskId) (h : ChainList nx hd l) : hd = l.head? := by
  cases hd <;> cases l <;> simp_all [ChainList]

theorem chainFrom_eq_of_chainList (nx : TaskId → Option TaskId) (l : List TaskId) :
    ∀ hd : Option TaskId, ChainList nx hd l → chainFrom nx l.length hd = l := by
  induction l with
  | nil =>
      intro hd h
      cases hd
      · rfl
      · exact absurd h (by simp [ChainList])
  | cons a rest ih =>
      intro hd h
      cases hd with
      | none => exact absurd h (by simp [ChainList])
      | some x =>
          obtain ⟨rfl, hrest⟩ := h
          simp [chainFrom, ih _ hrest]

theorem chainList_update_notmem (nx : TaskId → Option TaskId) (t : TaskId)
    (v : Option TaskId) (l : List TaskId) :
    ∀ hd : Option TaskId, ChainList nx hd l → t ∉ l →
      ChainList (Function.update nx t v) hd l := by
  induction l with
  | nil =>
      intro hd h _
      cases hd
      · trivial
      · exact absurd h (by simp [ChainList])
  | cons a rest ih =>
      intro hd h ht
      cases hd with
      | none => exact absurd h (by simp [ChainList])
      | some x =>
          obtain ⟨rfl, hrest⟩ := h
          refine ⟨rfl, ?_⟩
          have hne : x ≠ t := fun hxt => ht (hxt ▸ List.mem_cons_self x rest)
          rw [Function.update_noteq hne]
          exact ih _ hrest (fun hm => ht (List.mem_cons_of_mem _ hm))

theorem mem_of_getLast?_eq {l : List TaskId} {a : TaskId} (h : l.getLast? = some a) :
    a ∈ l := by
  obtain ⟨hne, rfl⟩ := List.mem_getLast?_eq_getLast (l := l) (x := a) h
  exact List.getLast_mem hne

theorem nodup_append_singleton {l : List TaskId} {t : TaskId}
    (hnd : l.Nodup) (ht : t ∉ l) : (l ++ [t]).Nodup := by
  simp [List.nodup_append, hnd, ht]

theorem chainList_snoc (nx : TaskId → Option TaskId) (t tl : TaskId) (l : List TaskId) :
    ∀ hd : Option TaskId, ChainList nx hd l → l.getLast? = some tl → l.Nodup → t ∉ l →
      ChainList (Function.update (Function.update nx t none) tl (some t)) hd (l ++ [t]) := by
  induction l with
  | nil =>
      intro hd _ hlast _ _
      simp at hlast
  | cons a rest ih =>
      intro hd h hlast hnd ht
      have hta : t ≠ a := fun h' => ht (by rw [h']; exact List.mem_cons_self a rest)
      cases hd with
      | none => exact absurd h (by simp [ChainList])
      | some x =>
          obtain ⟨hxa, hrest⟩ := h
          subst hxa
          simp only [List.cons_append, ChainList]
          refine ⟨by trivial, ?_⟩
          cases rest with
          | nil =>
              have hatl : x = tl := by simpa using hlast
              subst hatl
              rw [Function.update_same]
              simp [ChainList, Function.update_noteq hta, Function.update_same]
          | cons b rest' =>
              have hlast' : (b :: rest').getLast? = some tl := by
                rwa [List.getLast?_cons_cons] at hlast
              have htl_mem : tl ∈ b :: rest' := mem_of_getLast?_eq hlast'
              have hane : x ∉ b :: rest' := by
                simp only [List.nodup_cons] at hnd
                exact hnd.1
              have hat : x ≠ t := fun h' => ht (h' ▸ List.mem_cons_self x _)
              have hatl : x ≠ tl := fun h' => hane (h' ▸ htl_mem)
              rw [Function.update_noteq hatl, Function.update_noteq hat]
              exact ih _ hrest hlast' (List.Nodup.of_cons hnd)
                (fun hm => ht (List.mem_cons_of_mem _ hm))

theorem qrepr_init : QRepr lwt_queue_init_q [] := by
  refine ⟨trivial, rfl, rfl, List.nodup_nil⟩

theorem qrepr_push (q : QState) (l : List TaskId) (t : TaskId)
    (h : QRepr q l) (ht : t ∉ l) : QRepr (lwt_queue_push_locked q t) (l ++ [t]) := by
  obtain ⟨hc, htl, hcnt, hnd⟩ := h
  cases l with
  | nil =>
      have hhd : q.head = none := (chainList_none_iff_nil _ _ _ hc).mpr rfl
      have htail : q.tail = none := by simpa using htl
      unfold lwt_queue_push_locked
      rw [htail]
      refine ⟨?_, rfl, by simpa using hcnt, by simp⟩
      simp [ChainList, Function.update_same]
  | cons a rest =>
      obtain ⟨tl, htl'⟩ : ∃ tl, (a :: rest).getLast? = some tl := by
        cases h' : (a :: rest).getLast? with
        | none => simp [List.getLast?_eq_none_iff] at h'
        | some x => exact ⟨x, rfl⟩
      have htail : q.tail = some tl := htl.trans htl'
      unfold lwt_queue_push_locked
      rw [htail]
      refine ⟨?_, ?_, ?_, ?_⟩
      · exact chainList_snoc q.next t tl (a :: rest) q.head hc htl' hnd ht
      · exact (List.getLast?_concat _).symm
      · simp only [List.length_append, List.length_singleton]
        push_cast
        omega
      · exact nodup_append_singleton hnd ht

theorem qrepr_pop (q : QState) (l : List TaskId) (h : QRepr q l) :
    (lwt_queue_pop_locked q).2 = l.head? ∧ QRepr (lwt_queue_pop_locked q).1 l.tail := by
  obtain ⟨hc, htl, hcnt, hnd⟩ := h
  cases l with
  | nil =>
      have hhd : q.head = none := (chainList_none_iff_nil _ _ _ hc).mpr rfl
      unfold lwt_queue_pop_locked
      rw [hhd]
      exact ⟨rfl, ⟨hc, htl, hcnt, hnd⟩⟩
  | cons t rest =>
      have hhd : q.head = some t := by
        have := chainList_head _ _ _ hc
        simpa using this
      rw [hhd] at hc
      obtain ⟨_, hrest⟩ : t = t ∧ ChainList q.next (q.next t) rest := hc
      have htmem : t ∉ rest := by
        simp only [List.nodup_cons] at hnd
        exact hnd.1
      unfold lwt_queue_pop_locked
      rw [hhd]
      refine ⟨rfl, ?_, ?_, ?_, ?_⟩
      · exact chainList_update_notmem q.next t none rest _ hrest htmem
      · cases rest with
        | nil =>
            have : q.next t = none := (chainList_none_iff_nil _ _ _ hrest).mpr rfl
            simp [this]
        | cons b rest' =>
            have : q.next t = some b := by
              have := chainList_head _ _ _ hrest
              simpa using this
            simp only [this, List.tail_cons]
            rw [htl, List.getLast?_cons_cons]
      · simp only [List.length_cons] at hcnt
        simp only [List.tail_cons]
        omega
      · simp only [List.nodup_cons] at hnd
        exact hnd.2

theorem qrepr_pushAll (ts : List TaskId) :
    ∀ (q : QState) (l : List TaskId), QRepr q l → (l ++ ts).Nodup →
      QRepr (pushAll q ts) (l ++ ts) := by
  induction ts with
  | nil =>
      intro q l h _
      simpa [pushAll] using h
  | cons t ts' ih =>
      intro q l h hnd
      have ht : t ∉ l := fun hm =>
        (List.disjoint_of_nodup_append hnd) hm (List.mem_cons_self t ts')
      have h1 : QRepr (lwt_queue_push_locked q t) (l ++ [t]) := qrepr_push q l t h ht
      have h2 : ((l ++ [t]) ++ ts').Nodup := by
        simpa [List.append_assoc] using hnd
      have := ih (lwt_queue_push_locked q t) (l ++ [t]) h1 h2
      simpa [pushAll, List.append_assoc] using this

theorem drainN_spec (l : List TaskId) :
    ∀ q : QState, QRepr q l → (drainN q l.length).1 = l := by
  induction l with
  | nil => intro q _; rfl
  | cons t rest ih =>
      intro q h
      have hp := qrepr_pop q (t :: rest) h
      have h2 : (lwt_queue_pop_locked q).2 = some t := by simpa using hp.1
      have h1 : QRepr (lwt_queue_pop_locked q).1 rest := by simpa using hp.2
      simp only [List.length_cons, drainN, h2]
      simp [ih _ h1]

/-! ## Observer lemmas for the scheduler helpers. -/

@[simp] theorem setState_queue (s : Sched) (id : TaskId) (st : LwtState) :
    (s.setState id st).queue = s.queue := rfl

@[simp] theorem setState_running (s : Sched) (id : TaskId) (st : LwtState) :
    (s.setState id st).running = s.running := rfl

@[simp] theorem setState_sleeping (s : Sched) (id : TaskId) (st : LwtState) :
    (s.setState id st).sleeping = s.sleeping := rfl

@[simp] theorem setState_signals (s : Sched) (id : TaskId) (st : LwtState) :
    (s.setState id st).signals = s.signals := rfl

@[simp] theorem setState_numWorkers (s : Sched) (id : TaskId) (st : LwtState) :
    (s.setState id st).numWorkers = s.numWorkers := rfl

@[simp] theorem setWaiting_queue (s : Sched) (id : TaskId) (w : Option TaskId) :
    (s.setWaiting id w).queue = s.queue := rfl

@[simp] theorem setWaiting_running (s : Sched) (id : TaskId) (w : Option TaskId) :
    (s.setWaiting id w).running = s.running := rfl

@[simp] theorem setWaiting_sleeping (s : Sched) (id : TaskId) (w : Option TaskId) :
    (s.setWaiting id w).sleeping = s.sleeping := rfl

@[simp] theorem setWaiting_signals (s : Sched) (id : TaskId) (w : Option TaskId) :
    (s.setWaiting id w).signals = s.signals := rfl

@[simp] theorem pushReady_queue (s : Sched) (id : TaskId) :
    (s.pushReady id).queue = s.queue ++ [id] := rfl

@[simp] theorem pushReady_stateOf (s : Sched) (id j : TaskId) :
    (s.pushReady id).stateOf j = s.stateOf j := rfl

@[simp] theorem pushReady_waitingOf (s : Sched) (id j : TaskId) :
    (s.pushReady id).waitingOf j = s.waitingOf j := rfl

@[simp] theorem pushReady_running (s : Sched) (id : TaskId) :
    (s.pushReady id).running = s.running := rfl

@[simp] theorem pushReady_sleeping (s : Sched) (id : TaskId) :
    (s.pushReady id).sleeping = s.sleeping := rfl

@[simp] theorem pushReady_signals (s : Sched) (id : TaskId) :
    (s.pushReady id).signals = s.signals := rfl

@[simp] theorem clearRunning_queue (s : Sched) (w : Nat) :
    (s.clearRunning w).queue = s.queue := rfl

@[simp] theorem clearRunning_stateOf (s : Sched) (w : Nat) (j : TaskId) :
    (s.clearRunning w).stateOf j = s.stateOf j := rfl

@[simp] theorem clearRunning_waitingOf (s : Sched) (w : Nat) (j : TaskId) :
    (s.clearRunning w).waitingOf j = s.waitingOf j := rfl

@[simp] theorem clearRunning_running (s : Sched) (w : Nat) :
    (s.clearRunning w).running = Function.update s.running w none := rfl

@[simp] theorem clearRunning_sleeping (s : Sched) (w : Nat) :
    (s.clearRunning w).sleeping = s.sleeping := rfl

@[simp] theorem clearRunning_signals (s : Sched) (w : Nat) :
    (s.clearRunning w).signals = s.signals := rfl

@[simp] theorem setRunning_queue (s : Sched) (w : Nat) (id : TaskId) :
    (s.setRunning w id).queue = s.queue := rfl

@[simp] theorem setRunning_stateOf (s : Sched) (w : Nat) (id j : TaskId) :
    (s.setRunning w id).stateOf j = s.stateOf j := rfl

@[simp] theorem setRunning_waitingOf (s : Sched) (w : Nat) (id j : TaskId) :
    (s.setRunning w id).waitingOf j = s.waitingOf j := rfl

@[simp] theorem setRunning_running (s : Sched) (w : Nat) (id : TaskId) :
    (s.setRunning w id).running = Function.update s.running w (some id) := rfl

@[simp] theorem setRunning_sleeping (s : Sched) (w : Nat) (id : TaskId) :
    (s.setRunning w id).sleeping = s.sleeping := rfl

@[simp] theorem signalCond_queue (s : Sched) : s.signalCond.queue = s.queue := rfl

@[simp] theorem signalCond_stateOf (s : Sched) (j : TaskId) :
    s.signalCond.stateOf j = s.stateOf j := rfl

@[simp] theorem signalCond_waitingOf (s : Sched) (j : TaskId) :
    s.signalCond.waitingOf j = s.waitingOf j := rfl

@[simp] theorem signalCond_running (s : Sched) : s.signalCond.running = s.running := rfl

@[simp] theorem signalCond_sleeping (s : Sched) : s.signalCond.sleeping = s.sleeping := rfl

@[simp] theorem signalCond_signals (s : Sched) : s.signalCond.signals = s.signals + 1 := rfl

@[simp] theorem setSleeping_queue (s : Sched) (id : TaskId) (b : Bool) :
    (s.setSleeping id b).queue = s.queue := rfl

@[simp] theorem setSleeping_stateOf (s : Sched) (id : TaskId) (b : Bool) (j : TaskId) :
    (s.setSleeping id b).stateOf j = s.stateOf j := rfl

@[simp] theorem setSleeping_waitingOf (s : Sched) (id : TaskId) (b : Bool) (j : TaskId) :
    (s.setSleeping id b).waitingOf j = s.waitingOf j := rfl

@[simp] theorem setSleeping_running (s : Sched) (id : TaskId) (b : Bool) :
    (s.setSleeping id b).running = s.running := rfl

@[simp] theorem setSleeping_sleeping (s : Sched) (id : TaskId) (b : Bool) :
    (s.setSleeping id b).sleeping = Function.update s.sleeping id b := rfl

@[simp] theorem setSleeping_signals (s : Sched) (id : TaskId) (b : Bool) :
    (s.setSleeping id b).signals = s.signals := rfl

@[simp] theorem setState_broadcasts (s : Sched) (id : TaskId) (st : LwtState) :
    (s.setState id st).broadcasts = s.broadcasts := rfl

theorem stateOf_isSome_iff (s : Sched) (id : TaskId) :
    (∃ st, s.stateOf id = some st) ↔ s.tasks id ≠ none := by
  unfold Sched.stateOf
  cases s.tasks id <;> simp

theorem stateOf_setState_self {s : Sched} {id : TaskId} {st0 : LwtState}
    (st : LwtState) (h : s.stateOf id = some st0) :
    (s.setState id st).stateOf id = some st := by
  unfold Sched.stateOf Sched.setState at *
  cases h' : s.tasks id with
  | none => rw [h'] at h; simp at h
  | some t => simp [h']

theorem stateOf_setState_of_ne {s : Sched} {id j : TaskId} (st : LwtState) (h : j ≠ id) :
    (s.setState id st).stateOf j = s.stateOf j := by
  unfold Sched.stateOf Sched.setState
  simp [h]

theorem stateOf_setState_unalloc {s : Sched} {id : TaskId} (st : LwtState)
    (h : s.tasks id = none) : (s.setState id st).stateOf id = none := by
  unfold Sched.stateOf Sched.setState
  simp [h]

theorem tasks_setState_ne_none_iff (s : Sched) (id j : TaskId) (st : LwtState) :
    (s.setState id st).tasks j = none ↔ s.tasks j = none := by
  unfold Sched.setState
  by_cases h : j = id
  · subst h; cases s.tasks j <;> simp
  · simp [h]

theorem waitingOf_setState (s : Sched) (id j : TaskId) (st : LwtState) :
    (s.setState id st).waitingOf j = s.waitingOf j := by
  unfold Sched.waitingOf Sched.setState
  by_cases h : j = id
  · subst h; cases s.tasks j <;> simp
  · simp [h]

theorem stateOf_setWaiting (s : Sched) (id j : TaskId) (w : Option TaskId) :
    (s.setWaiting id w).stateOf j = s.stateOf j := by
  unfold Sched.stateOf Sched.setWaiting
  by_cases h : j = id
  · subst h; cases s.tasks j <;> simp
  · simp [h]

theorem waitingOf_setWaiting_self {s : Sched} {id : TaskId} {st0 : LwtState}
    (w : Option TaskId) (h : s.stateOf id = some st0) :
    (s.setWaiting id w).waitingOf id = w := by
  unfold Sched.stateOf at h
  unfold Sched.waitingOf Sched.setWaiting
  cases h' : s.tasks id with
  | none => rw [h'] at h; simp at h
  | some t => simp [h']

theorem waitingOf_setWaiting_of_ne {s : Sched} {id j : TaskId} (w : Option TaskId)
    (h : j ≠ id) : (s.setWaiting id w).waitingOf j = s.waitingOf j := by
  unfold Sched.waitingOf Sched.setWaiting
  simp [h]

theorem stateOf_thread_init_new_self (s : Sched) (id : TaskId) :
    (lwt_thread_init_new s id).stateOf id = some LwtState.NEW := by
  unfold Sched.stateOf lwt_thread_init_new
  simp

theorem stateOf_thread_init_new_of_ne (s : Sched) (id j : TaskId) (h : j ≠ id) :
    (lwt_thread_init_new s id).stateOf j = s.stateOf j := by
  unfold Sched.stateOf lwt_thread_init_new
  simp [h]

theorem waitingOf_thread_init_new_self (s : Sched) (id : TaskId) :
    (lwt_thread_init_new s id).waitingOf id = none := by
  unfold Sched.waitingOf lwt_thread_init_new
  simp

theorem waitingOf_thread_init_new_of_ne (s : Sched) (id j : TaskId) (h : j ≠ id) :
    (lwt_thread_init_new s id).waitingOf j = s.waitingOf j := by
  unfold Sched.waitingOf lwt_thread_init_new
  simp [h]

@[simp] theorem thread_init_new_queue (s : Sched) (id : TaskId) :
    (lwt_thread_init_new s id).queue = s.queue := rfl

@[simp] theorem thread_init_new_running (s : Sched) (id : TaskId) :
    (lwt_thread_init_new s id).running = s.running := rfl

@[simp] theorem thread_init_new_sleeping (s : Sched) (id : TaskId) :
    (lwt_thread_init_new s id).sleeping = s.sleeping := rfl

/-- C7: lwt_scheduler_create returns NULL exactly when the worker count
is below 1 or above LWT_MAX_WORKERS = 64; for every valid count it
succeeds (absent allocation failure) and the scheduler it returns has
running_flag false, next task id 1, an empty ready queue, and worker
ids pre-populated as 0..n-1. -/
theorem c7_scheduler_create (n : Int) :
    (lwt_scheduler_create_state n = none ↔ (n < 1 ∨ 64 < n)) ∧
    (1 ≤ n → n ≤ 64 → ∃ s : Sched, lwt_scheduler_create_state n = some s ∧
      s.runningFlag = false ∧ s.nextId = 1 ∧ s.queue = [] ∧
      s.numWorkers = n.toNat ∧ ∀ i : Nat, (i : Int) < n → s.workerIds i = i) := by
  constructor
  · unfold lwt_scheduler_create_state lwt_scheduler_init_state LWT_MAX_WORKERS
    by_cases h : n ≤ 0 ∨ (64 : Int) < n
    · rw [if_pos h]
      simp only [true_iff]
      omega
    · rw [if_neg h, if_neg h]
      simp only [Option.some_ne_none, false_iff]
      omega
  · intro h1 h2
    unfold lwt_scheduler_create_state lwt_scheduler_init_state LWT_MAX_WORKERS
    have h : ¬(n ≤ 0 ∨ (64 : Int) < n) := by omega
    rw [if_neg h, if_neg h]
    refine ⟨_, rfl, rfl, rfl, rfl, rfl, ?_⟩
    intro i hi
    simp only [if_pos hi]

/-- C7 witness at worker count 4. -/
theorem c7_scheduler_create_witness :
    (lwt_scheduler_create_state 4 = none ↔ ((4 : Int) < 1 ∨ (64 : Int) < 4)) ∧
    ((1 : Int) ≤ 4 → (4 : Int) ≤ 64 → ∃ s : Sched, lwt_scheduler_create_state 4 = some s ∧
      s.runningFlag = false ∧ s.nextId = 1 ∧ s.queue = [] ∧
      s.numWorkers = (4 : Int).toNat ∧ ∀ i : Nat, (i : Int) < 4 → s.workerIds i = i) :=
  c7_scheduler_create 4

/-- C9: lwt_scheduler_stop on a non-running scheduler returns without
changing any state, stop composed with stop equals a single stop, and
the create, stop, stop, destroy sequence goes through: create on a
valid count yields a non-running scheduler that both stops leave
untouched (so the subsequent cleanup acts on the same state). -/
theorem c9_stop_idempotent (s : Sched) :
    (s.runningFlag = false → lwt_scheduler_stop_state s = s) ∧
    lwt_scheduler_stop_state (lwt_scheduler_stop_state s) = lwt_scheduler_stop_state s ∧
    (∀ n : Int, 1 ≤ n → n ≤ 64 →
      ∃ s0 : Sched, lwt_scheduler_create_state n = some s0 ∧
        lwt_scheduler_stop_state s0 = s0 ∧
        lwt_scheduler_stop_state (lwt_scheduler_stop_state s0) = s0) := by
  refine ⟨?_, ?_, ?_⟩
  · intro h
    unfold lwt_scheduler_stop_state
    rw [h]
    rfl
  · unfold lwt_scheduler_stop_state
    by_cases h : s.runningFlag
    · rw [if_pos h]
      rfl
    · rw [if_neg h, if_neg h]
  · intro n h1 h2
    unfold lwt_scheduler_create_state lwt_scheduler_init_state LWT_MAX_WORKERS
    have h : ¬(n ≤ 0 ∨ (64 : Int) < n) := by omega
    rw [if_neg h, if_neg h]
    exact ⟨_, rfl, rfl, rfl⟩

/-- C9 witness: a concrete non-running scheduler and the concrete
create(4) scenario. -/
theorem c9_stop_idempotent_witness :
    (schedOne.runningFlag = false → lwt_scheduler_stop_state schedOne = schedOne) ∧
    lwt_scheduler_stop_state (lwt_scheduler_stop_state schedOne) =
      lwt_scheduler_stop_state schedOne ∧
    (∀ n : Int, 1 ≤ n → n ≤ 64 →
      ∃ s0 : Sched, lwt_scheduler_create_state n = some s0 ∧
        lwt_scheduler_stop_state s0 = s0 ∧
        lwt_scheduler_stop_state (lwt_scheduler_stop_state s0) = s0) :=
  c9_stop_idempotent schedOne

/-- C8: every failing control path of lwt_thread_init and of
lwt_scheduler_init reports the error synchronously as -1 and rolls the
partially initialized object back before returning: an allocated stack
is freed, an initialized queue is destroyed, an initialized mutex is
destroyed; on success every acquired resource is still held. -/
theorem c8_init_rollback :
    (∀ threadNull funcNull schedNull mallocOk getcontextOk : Bool,
      ((lwt_thread_init_model threadNull funcNull schedNull mallocOk getcontextOk).ret ≠ 0 →
        (lwt_thread_init_model threadNull funcNull schedNull mallocOk getcontextOk).ret = -1 ∧
        ((lwt_thread_init_model threadNull funcNull schedNull mallocOk getcontextOk).stackAllocated = true →
          (lwt_thread_init_model threadNull funcNull schedNull mallocOk getcontextOk).stackFreed = true)) ∧
      ((lwt_thread_init_model threadNull funcNull schedNull mallocOk getcontextOk).ret = 0 →
        (lwt_thread_init_model threadNull funcNull schedNull mallocOk getcontextOk).stackAllocated = true ∧
        (lwt_thread_init_model threadNull funcNull schedNull mallocOk getcontextOk).stackFreed = false)) ∧
    (∀ (schedNull : Bool) (n : Int) (queueOk mutexOk condOk : Bool),
      ((lwt_scheduler_init_model schedNull n queueOk mutexOk condOk).ret ≠ 0 →
        (lwt_scheduler_init_model schedNull n queueOk mutexOk condOk).ret = -1 ∧
        ((lwt_scheduler_init_model schedNull n queueOk mutexOk condOk).queueInitDone = true →
          (lwt_scheduler_init_model schedNull n queueOk mutexOk condOk).queueDestroyed = true) ∧
        ((lwt_scheduler_init_model schedNull n queueOk mutexOk condOk).mutexInitDone = true →
          (lwt_scheduler_init_model schedNull n queueOk mutexOk condOk).mutexDestroyed = true)) ∧
      ((lwt_scheduler_init_model schedNull n queueOk mutexOk condOk).ret = 0 →
        (lwt_scheduler_init_model schedNull n queueOk mutexOk condOk).queueInitDone = true ∧
        (lwt_scheduler_init_model schedNull n queueOk mutexOk condOk).queueDestroyed = false ∧
        (lwt_scheduler_init_model schedNull n queueOk mutexOk condOk).mutexInitDone = true ∧
        (lwt_scheduler_init_model schedNull n queueOk mutexOk condOk).mutexDestroyed = false ∧
        (lwt_scheduler_init_model schedNull n queueOk mutexOk condOk).condInitDone = true)) := by
  constructor
  · intro threadNull funcNull schedNull mallocOk getcontextOk
    unfold lwt_thread_init_model
    split_ifs <;> simp
  · intro schedNull n queueOk mutexOk condOk
    unfold lwt_scheduler_init_model
    split_ifs <;> simp

/-- C8 witness: getcontext failure frees the stack, cond-init failure
destroys mutex and queue. -/
theorem c8_init_rollback_witness :
    ((lwt_thread_init_model false false false true false).ret = -1 ∧
      (lwt_thread_init_model false false false true false).stackFreed = true) ∧
    ((lwt_scheduler_init_model false 4 true true false).ret = -1 ∧
      (lwt_scheduler_init_model false 4 true true false).queueDestroyed = true ∧
      (lwt_scheduler_init_model false 4 true true false).mutexDestroyed = true) := by
  have h := c8_init_rollback
  have h1 := (h.1 false false false true false).1 (by decide)
  have h2 := (h.2 false 4 true true false).1 (by norm_num [lwt_scheduler_init_model, LWT_MAX_WORKERS])
  exact ⟨⟨h1.1, h1.2 (by decide)⟩,
    ⟨h2.1, h2.2.1 (by norm_num [lwt_scheduler_init_model, LWT_MAX_WORKERS]),
      h2.2.2 (by norm_num [lwt_scheduler_init_model, LWT_MAX_WORKERS])⟩⟩

/-! ## Reduction helpers for the cooperative primitives. -/

theorem lwt_yield_state_some (s : Sched) (id : TaskId) (w : Int)
    (h : ¬(w < 0 ∨ (s.numWorkers : Int) ≤ w)) :
    lwt_yield_state s (some id) w =
      (((if s.stateOf id ≠ some LwtState.FINISHED
          then (s.setState id LwtState.READY).pushReady id else s).clearRunning
        w.toNat).signalCond, true) := by
  simp only [lwt_yield_state]
  rw [if_neg h]

theorem lwt_join_state_blocks (s : Sched) (tgt self : TaskId) (w : Int)
    (h : ¬(w < 0 ∨ (s.numWorkers : Int) ≤ w))
    (hfin : ¬ s.stateOf tgt = some LwtState.FINISHED) :
    lwt_join_state s (some tgt) (some self) w =
      ((((s.setState self LwtState.BLOCKED).setWaiting tgt (some self)).clearRunning
        w.toNat), true) := by
  simp only [lwt_join_state]
  rw [if_neg h, if_neg hfin]

theorem lwt_join_state_finished (s : Sched) (tgt self : TaskId) (w : Int)
    (h : ¬(w < 0 ∨ (s.numWorkers : Int) ≤ w))
    (hfin : s.stateOf tgt = some LwtState.FINISHED) :
    lwt_join_state s (some tgt) (some self) w = (s, false) := by
  simp only [lwt_join_state]
  rw [if_neg h, if_pos hfin]

theorem lwt_thread_start_finish_eq (s : Sched) (id : TaskId) :
    lwt_thread_start_finish s id =
      match s.waitingOf id with
      | none => s.setState id LwtState.FINISHED
      | some j =>
          ((((s.setState id LwtState.FINISHED).setState j LwtState.READY).pushReady
            j).setWaiting id none).signalCond := by
  cases hwait : s.waitingOf id <;>
    simp [lwt_thread_start_finish, waitingOf_setState, hwait]

/-- C4: a yield from inside a task whose state is not FINISHED makes the
task READY, appends it at the tail of the ready queue and signals the
condition variable before switching; a yield from a FINISHED task (the
trampoline's final yield) does not re-enqueue it; a yield from outside
any task is a no-op. -/
theorem c4_yield (s : Sched) (id : TaskId) (w : Nat) (hw : w < s.numWorkers) :
    (∀ w' : Int, lwt_yield_state s none w' = (s, false)) ∧
    (∀ st : LwtState, s.stateOf id = some st → st ≠ LwtState.FINISHED →
      (lwt_yield_state s (some id) (w : Int)).1.stateOf id = some LwtState.READY ∧
      (lwt_yield_state s (some id) (w : Int)).1.queue = s.queue ++ [id] ∧
      (lwt_yield_state s (some id) (w : Int)).1.signals = s.signals + 1 ∧
      (lwt_yield_state s (some id) (w : Int)).2 = true) ∧
    (s.stateOf id = some LwtState.FINISHED →
      (lwt_yield_state s (some id) (w : Int)).1.queue = s.queue ∧
      (lwt_yield_state s (some id) (w : Int)).2 = true) := by
  have hcond : ¬((w : Int) < 0 ∨ (s.numWorkers : Int) ≤ (w : Int)) := by omega
  refine ⟨fun w' => rfl, ?_, ?_⟩
  · intro st hst hne
    have hif : s.stateOf id ≠ some LwtState.FINISHED := by
      rw [hst]
      intro h'
      exact hne (by injection h')
    rw [lwt_yield_state_some s id (w : Int) hcond, if_pos hif]
    refine ⟨?_, by simp, by simp, rfl⟩
    simp only [signalCond_stateOf, clearRunning_stateOf, pushReady_stateOf]
    exact stateOf_setState_self LwtState.READY hst
  · intro hst
    have hif : ¬ s.stateOf id ≠ some LwtState.FINISHED := by
      simp [hst]
    rw [lwt_yield_state_some s id (w : Int) hcond, if_neg hif]
    exact ⟨by simp, rfl⟩

/-- C4 witness: task 0 RUNNING on the one worker of schedTwo yields;
and a yield outside any task on the same scheduler is a no-op. -/
theorem c4_yield_witness :
    (∀ w' : Int, lwt_yield_state schedTwo none w' = (schedTwo, false)) ∧
    (∀ st : LwtState, schedTwo.stateOf 0 = some st → st ≠ LwtState.FINISHED →
      (lwt_yield_state schedTwo (some 0) ((0 : Nat) : Int)).1.stateOf 0 =
        some LwtState.READY ∧
      (lwt_yield_state schedTwo (some 0) ((0 : Nat) : Int)).1.queue = schedTwo.queue ++ [0] ∧
      (lwt_yield_state schedTwo (some 0) ((0 : Nat) : Int)).1.signals =
        schedTwo.signals + 1 ∧
      (lwt_yield_state schedTwo (some 0) ((0 : Nat) : Int)).2 = true) ∧
    (schedTwo.stateOf 0 = some LwtState.FINISHED →
      (lwt_yield_state schedTwo (some 0) ((0 : Nat) : Int)).1.queue = schedTwo.queue ∧
      (lwt_yield_state schedTwo (some 0) ((0 : Nat) : Int)).2 = true) :=
  c4_yield schedTwo 0 0 (by norm_num [schedTwo])

/-- C3: a join called from inside a task on a FINISHED target returns
immediately with no state change and no context switch; on any other
target it sets the caller BLOCKED, installs the caller as the target's
joiner back-link, leaves the ready queue unchanged (the caller is not
enqueued), and switches to the worker's dispatch context. -/
theorem c3_join (s : Sched) (tgt self : TaskId) (w : Nat) (hw : w < s.numWorkers)
    (hself : s.stateOf self = some LwtState.RUNNING) (htgt : s.tasks tgt ≠ none) :
    (s.stateOf tgt = some LwtState.FINISHED →
      lwt_join_state s (some tgt) (some self) (w : Int) = (s, false)) ∧
    (s.stateOf tgt ≠ some LwtState.FINISHED →
      (lwt_join_state s (some tgt) (some self) (w : Int)).2 = true ∧
      (lwt_join_state s (some tgt) (some self) (w : Int)).1.stateOf self =
        some LwtState.BLOCKED ∧
      (lwt_join_state s (some tgt) (some self) (w : Int)).1.waitingOf tgt = some self ∧
      (lwt_join_state s (some tgt) (some self) (w : Int)).1.queue = s.queue) := by
  have hcond : ¬((w : Int) < 0 ∨ (s.numWorkers : Int) ≤ (w : Int)) := by omega
  constructor
  · intro hfin
    exact lwt_join_state_finished s tgt self (w : Int) hcond hfin
  · intro hfin
    rw [lwt_join_state_blocks s tgt self (w : Int) hcond hfin]
    refine ⟨rfl, ?_, ?_, by simp⟩
    · simp only [clearRunning_stateOf]
      rw [stateOf_setWaiting]
      exact stateOf_setState_self LwtState.BLOCKED hself
    · simp only [clearRunning_waitingOf]
      obtain ⟨st0, hst0⟩ : ∃ st0, (s.setState self LwtState.BLOCKED).stateOf tgt = some st0 := by
        rw [stateOf_isSome_iff]
        intro hnone
        exact htgt ((tasks_setState_ne_none_iff s self tgt LwtState.BLOCKED).mp hnone)
      exact waitingOf_setWaiting_self (some self) hst0

/-- C3 witness: in schedTwo, task 1 (made RUNNING in place of 0 for the
call) joins task 0; here we use task 0 RUNNING joining the BLOCKED
task 1, exercising the blocking branch. -/
theorem c3_join_witness :
    (schedTwo.stateOf 1 = some LwtState.FINISHED →
      lwt_join_state schedTwo (some 1) (some 0) ((0 : Nat) : Int) = (schedTwo, false)) ∧
    (schedTwo.stateOf 1 ≠ some LwtState.FINISHED →
      (lwt_join_state schedTwo (some 1) (some 0) ((0 : Nat) : Int)).2 = true ∧
      (lwt_join_state schedTwo (some 1) (some 0) ((0 : Nat) : Int)).1.stateOf 0 =
        some LwtState.BLOCKED ∧
      (lwt_join_state schedTwo (some 1) (some 0) ((0 : Nat) : Int)).1.waitingOf 1 = some 0 ∧
      (lwt_join_state schedTwo (some 1) (some 0) ((0 : Nat) : Int)).1.queue =
        schedTwo.queue) :=
  c3_join schedTwo 1 0 0 (by norm_num [schedTwo])
    (by norm_num [schedTwo, Sched.stateOf]) (by simp [schedTwo])

/-- C1: when a task's entry function returns, the trampoline sets the
task FINISHED; if a joiner is installed at that moment the joiner goes
from BLOCKED to READY, is appended to the ready queue, the back-link
is cleared and the condition variable is signalled — and the whole
effect factors through the state in which the task is already FINISHED
but the queue is still unchanged, so the joiner's re-enqueue happens
after the FINISHED transition. -/
theorem c1_trampoline (s : Sched) (id : TaskId)
    (hrun : s.stateOf id = some LwtState.RUNNING)
    (hwb : ∀ j, s.waitingOf id = some j → s.stateOf j = some LwtState.BLOCKED) :
    (s.waitingOf id = none →
      lwt_thread_start_finish s id = s.setState id LwtState.FINISHED) ∧
    (lwt_thread_start_finish s id).stateOf id = some LwtState.FINISHED ∧
    (∀ j, s.waitingOf id = some j →
      (lwt_thread_start_finish s id).stateOf j = some LwtState.READY ∧
      (lwt_thread_start_finish s id).queue = s.queue ++ [j] ∧
      (lwt_thread_start_finish s id).waitingOf id = none ∧
      (lwt_thread_start_finish s id).signals = s.signals + 1 ∧
      lwt_thread_start_finish s id =
        ((((s.setState id LwtState.FINISHED).setState j LwtState.READY).pushReady
          j).setWaiting id none).signalCond ∧
      (s.setState id LwtState.FINISHED).stateOf id = some LwtState.FINISHED ∧
      (s.setState id LwtState.FINISHED).queue = s.queue) := by
  have hfin1 : (s.setState id LwtState.FINISHED).stateOf id = some LwtState.FINISHED :=
    stateOf_setState_self LwtState.FINISHED hrun
  rw [lwt_thread_start_finish_eq]
  cases hwait : s.waitingOf id with
  | none =>
      refine ⟨fun _ => rfl, hfin1, ?_⟩
      intro j hj
      exact absurd hj (by simp)
  | some j0 =>
      have hj0 : s.stateOf j0 = some LwtState.BLOCKED := hwb j0 hwait
      have hne : j0 ≠ id := by
        intro h'
        rw [h', hrun] at hj0
        exact absurd hj0 (by simp)
      refine ⟨fun h' => absurd h' (by simp), ?_, ?_⟩
      · rw [signalCond_stateOf, stateOf_setWaiting, pushReady_stateOf,
          stateOf_setState_of_ne LwtState.READY (Ne.symm hne)]
        exact hfin1
      · intro j hj
        have hjj : j0 = j := by injection hj
        subst hjj
        refine ⟨?_, by simp, ?_, by simp, rfl, hfin1, by simp⟩
        · rw [signalCond_stateOf, stateOf_setWaiting, pushReady_stateOf]
          have hb : (s.setState id LwtState.FINISHED).stateOf j0 = some LwtState.BLOCKED := by
            rw [stateOf_setState_of_ne LwtState.FINISHED hne]
            exact hj0
          exact stateOf_setState_self LwtState.READY hb
        · rw [signalCond_waitingOf]
          have hs : (((s.setState id LwtState.FINISHED).setState j0 LwtState.READY).pushReady
              j0).stateOf id = some LwtState.FINISHED := by
            rw [pushReady_stateOf, stateOf_setState_of_ne _ (Ne.symm hne)]
            exact hfin1
          exact waitingOf_setWaiting_self none hs

/-- C1 witness: in schedTwo, task 0 is RUNNING with task 1 as its
BLOCKED joiner; its trampoline finish wakes task 1. -/
theorem c1_trampoline_witness :
    (schedTwo.waitingOf 0 = none →
      lwt_thread_start_finish schedTwo 0 = schedTwo.setState 0 LwtState.FINISHED) ∧
    (lwt_thread_start_finish schedTwo 0).stateOf 0 = some LwtState.FINISHED ∧
    (∀ j, schedTwo.waitingOf 0 = some j →
      (lwt_thread_start_finish schedTwo 0).stateOf j = some LwtState.READY ∧
      (lwt_thread_start_finish schedTwo 0).queue = schedTwo.queue ++ [j] ∧
      (lwt_thread_start_finish schedTwo 0).waitingOf 0 = none ∧
      (lwt_thread_start_finish schedTwo 0).signals = schedTwo.signals + 1 ∧
      lwt_thread_start_finish schedTwo 0 =
        ((((schedTwo.setState 0 LwtState.FINISHED).setState j LwtState.READY).pushReady
          j).setWaiting 0 none).signalCond ∧
      (schedTwo.setState 0 LwtState.FINISHED).stateOf 0 = some LwtState.FINISHED ∧
      (schedTwo.setState 0 LwtState.FINISHED).queue = schedTwo.queue) :=
  c1_trampoline schedTwo 0 (by norm_num [schedTwo, Sched.stateOf])
    (by
      intro j hj
      simp only [schedTwo, Sched.waitingOf] at hj
      norm_num at hj
      subst hj
      norm_num [schedTwo, Sched.stateOf])

theorem lwt_sleep_state_some (s : Sched) (id : TaskId) (w : Int) (now : Timespec) (ms : Nat)
    (h : ¬(w < 0 ∨ (s.numWorkers : Int) ≤ w)) :
    lwt_sleep_state s (some id) w now ms =
      { final := lwt_sleep_wake (lwt_sleep_block s id w) id
        duringWait := some (lwt_sleep_block s id w)
        osSleep := false
        wakeTime := some (computeWakeTime now ms)
        switched := true } := by
  simp only [lwt_sleep_state]
  rw [if_neg h]

theorem computeWakeTime_correct (now : Timespec) (ms : Nat) :
    (computeWakeTime now ms).sec * 1000000000 + (computeWakeTime now ms).nsec =
      (now.sec * 1000000000 + now.nsec) + ms * 1000000 := by
  simp only [computeWakeTime]
  split_ifs with h2 <;> simp only [] <;> omega

/-- C6: lwt_sleep outside any task delegates to a plain blocking OS
sleep with no scheduler state change; inside a task it computes an
absolute wake time (now plus ms milliseconds), blocks the task and
clears the worker's current slot in a first critical section, waits
with the scheduler mutex released (duringWait is the state during the
wait: task BLOCKED, slot cleared, queue untouched), and on wake makes
the task READY again, enqueues it, signals, and switches to the
dispatch context. -/
theorem c6_sleep (s : Sched) (id : TaskId) (w : Nat) (now : Timespec) (ms : Nat)
    (hw : w < s.numWorkers) (hid : s.stateOf id = some LwtState.RUNNING) :
    (∀ (w' : Int) (now' : Timespec) (ms' : Nat), lwt_sleep_state s none w' now' ms' =
      { final := s, duringWait := none, osSleep := true, wakeTime := none,
        switched := false }) ∧
    (lwt_sleep_state s (some id) (w : Int) now ms).osSleep = false ∧
    (lwt_sleep_state s (some id) (w : Int) now ms).wakeTime =
      some (computeWakeTime now ms) ∧
    ((computeWakeTime now ms).sec * 1000000000 + (computeWakeTime now ms).nsec =
      (now.sec * 1000000000 + now.nsec) + ms * 1000000) ∧
    (lwt_sleep_state s (some id) (w : Int) now ms).duringWait =
      some (lwt_sleep_block s id (w : Int)) ∧
    (lwt_sleep_block s id (w : Int)).stateOf id = some LwtState.BLOCKED ∧
    (lwt_sleep_block s id (w : Int)).running w = none ∧
    (lwt_sleep_block s id (w : Int)).queue = s.queue ∧
    (lwt_sleep_state s (some id) (w : Int) now ms).final =
      lwt_sleep_wake (lwt_sleep_block s id (w : Int)) id ∧
    (lwt_sleep_state s (some id) (w : Int) now ms).final.stateOf id =
      some LwtState.READY ∧
    (lwt_sleep_state s (some id) (w : Int) now ms).final.queue = s.queue ++ [id] ∧
    (lwt_sleep_state s (some id) (w : Int) now ms).final.signals = s.signals + 1 ∧
    (lwt_sleep_state s (some id) (w : Int) now ms).switched = true := by
  have hcond : ¬((w : Int) < 0 ∨ (s.numWorkers : Int) ≤ (w : Int)) := by omega
  have hred := lwt_sleep_state_some s id (w : Int) now ms hcond
  have hblock : (lwt_sleep_block s id (w : Int)).stateOf id = some LwtState.BLOCKED := by
    unfold lwt_sleep_block
    rw [setSleeping_stateOf, clearRunning_stateOf]
    exact stateOf_setState_self LwtState.BLOCKED hid
  refine ⟨fun w' now' ms' => rfl, by rw [hred], by rw [hred], computeWakeTime_correct now ms,
    by rw [hred], hblock, ?_, ?_, by rw [hred], ?_, ?_, ?_, by rw [hred]⟩
  · unfold lwt_sleep_block
    rw [setSleeping_running, clearRunning_running]
    simp [Int.toNat_natCast]
  · unfold lwt_sleep_block
    simp
  · rw [hred]
    unfold lwt_sleep_wake
    rw [setSleeping_stateOf, signalCond_stateOf, pushReady_stateOf]
    exact stateOf_setState_self LwtState.READY hblock
  · rw [hred]
    unfold lwt_sleep_wake lwt_sleep_block
    simp
  · rw [hred]
    unfold lwt_sleep_wake lwt_sleep_block
    simp

/-- C6 witness: task 0 RUNNING on worker 0 of schedTwo sleeps 1500 ms
starting at time 2 s + 700000000 ns. -/
theorem c6_sleep_witness :
    (∀ (w' : Int) (now' : Timespec) (ms' : Nat),
      lwt_sleep_state schedTwo none w' now' ms' =
      { final := schedTwo, duringWait := none, osSleep := true, wakeTime := none,
        switched := false }) ∧
    (lwt_sleep_state schedTwo (some 0) ((0 : Nat) : Int) ⟨2, 700000000⟩ 1500).osSleep =
      false ∧
    (lwt_sleep_state schedTwo (some 0) ((0 : Nat) : Int) ⟨2, 700000000⟩ 1500).wakeTime =
      some (computeWakeTime ⟨2, 700000000⟩ 1500) ∧
    ((computeWakeTime ⟨2, 700000000⟩ 1500).sec * 1000000000 +
        (computeWakeTime ⟨2, 700000000⟩ 1500).nsec =
      ((2 : Nat) * 1000000000 + 700000000) + 1500 * 1000000) ∧
    (lwt_sleep_state schedTwo (some 0) ((0 : Nat) : Int) ⟨2, 700000000⟩ 1500).duringWait =
      some (lwt_sleep_block schedTwo 0 ((0 : Nat) : Int)) ∧
    (lwt_sleep_block schedTwo 0 ((0 : Nat) : Int)).stateOf 0 = some LwtState.BLOCKED ∧
    (lwt_sleep_block schedTwo 0 ((0 : Nat) : Int)).running 0 = none ∧
    (lwt_sleep_block schedTwo 0 ((0 : Nat) : Int)).queue = schedTwo.queue ∧
    (lwt_sleep_state schedTwo (some 0) ((0 : Nat) : Int) ⟨2, 700000000⟩ 1500).final =
      lwt_sleep_wake (lwt_sleep_block schedTwo 0 ((0 : Nat) : Int)) 0 ∧
    (lwt_sleep_state schedTwo (some 0) ((0 : Nat) : Int) ⟨2, 700000000⟩ 1500).final.stateOf 0 =
      some LwtState.READY ∧
    (lwt_sleep_state schedTwo (some 0) ((0 : Nat) : Int) ⟨2, 700000000⟩ 1500).final.queue =
      schedTwo.queue ++ [0] ∧
    (lwt_sleep_state schedTwo (some 0) ((0 : Nat) : Int) ⟨2, 700000000⟩ 1500).final.signals =
      schedTwo.signals + 1 ∧
    (lwt_sleep_state schedTwo (some 0) ((0 : Nat) : Int) ⟨2, 700000000⟩ 1500).switched =
      true :=
  c6_sleep schedTwo 0 0 ⟨2, 700000000⟩ 1500 (by norm_num [schedTwo])
    (by norm_num [schedTwo, Sched.stateOf])

theorem qreach_repr (q : QState) (l : List TaskId) (h : QReachL q l) : QRepr q l := by
  induction h with
  | init => exact qrepr_init
  | push q' l' t h' ht ih => exact qrepr_push q' l' t ih ht
  | pop q' l' h' ih => exact (qrepr_pop q' l' ih).2

/-- C5: the ready queue is FIFO: push makes the pushed task the new
tail (and appends it to the represented list), pop removes and returns
the head, pop on an empty queue returns the NULL sentinel, and a
sequence of pushes of distinct tasks with no interleaved pops is
drained in exactly push order. -/
theorem c5_queue_fifo :
    (∀ (q : QState) (t : TaskId), (lwt_queue_push_locked q t).tail = some t) ∧
    (∀ (q : QState) (l : List TaskId) (t : TaskId), QRepr q l → t ∉ l →
      QRepr (lwt_queue_push_locked q t) (l ++ [t])) ∧
    (∀ (q : QState) (l : List TaskId), QRepr q l →
      (lwt_queue_pop_locked q).2 = l.head? ∧ QRepr (lwt_queue_pop_locked q).1 l.tail) ∧
    (∀ q : QState, q.head = none → lwt_queue_pop_locked q = (q, none)) ∧
    (∀ ts : List TaskId, ts.Nodup →
      (drainN (pushAll lwt_queue_init_q ts) ts.length).1 = ts) := by
  refine ⟨?_, ?_, ?_, ?_, ?_⟩
  · intro q t
    cases htl : q.tail <;> simp [lwt_queue_push_locked, htl]
  · exact fun q l t h ht => qrepr_push q l t h ht
  · exact fun q l h => qrepr_pop q l h
  · intro q h
    unfold lwt_queue_pop_locked
    rw [h]
  · intro ts hnd
    refine drainN_spec ts (pushAll lwt_queue_init_q ts) ?_
    have := qrepr_pushAll ts lwt_queue_init_q [] qrepr_init (by simpa using hnd)
    simpa using this

/-- C5 witness: pushing 1, 2, 3 into the empty queue and draining
returns 1, 2, 3. -/
theorem c5_queue_fifo_witness :
    (drainN (pushAll lwt_queue_init_q [1, 2, 3]) ([1, 2, 3] : List TaskId).length).1 =
      [1, 2, 3] :=
  c5_queue_fifo.2.2.2.2 [1, 2, 3] (by decide)

/-- C10: in every queue state reachable from init by pushes (of tasks
not already queued, the queue's documented precondition) and pops, the
count field equals the number of tasks linked from head to tail; push
increments count by one, pop of a non-empty queue decrements it by one
and returns a task, size returns the count, and empty returns 1
exactly when the count is 0, i.e. when head is the NULL sentinel. -/
theorem c10_queue_count (q : QState) (l : List TaskId) (h : QReachL q l) :
    q.count = (l.length : Int) ∧
    chainFrom q.next l.length q.head = l ∧
    lwt_queue_size q = q.count ∧
    (lwt_queue_empty q = 1 ↔ q.count = 0) ∧
    (q.count = 0 ↔ q.head = none) ∧
    (∀ t : TaskId, (lwt_queue_push_locked q t).count = q.count + 1) ∧
    (l ≠ [] → (lwt_queue_pop_locked q).1.count = q.count - 1 ∧
      (lwt_queue_pop_locked q).2 ≠ none) := by
  obtain ⟨hc, htl, hcnt, hnd⟩ := qreach_repr q l h
  have hhead : q.head = none ↔ l = [] := chainList_none_iff_nil _ _ _ hc
  have hcount0 : q.count = 0 ↔ q.head = none := by
    rw [hcnt, hhead]
    cases l with
    | nil => simp
    | cons a rest =>
        simp only [List.length_cons]
        constructor
        · intro h'
          exact absurd h' (by push_cast; omega)
        · intro h'
          exact absurd h' (by simp)
  refine ⟨hcnt, chainFrom_eq_of_chainList q.next l q.head hc, rfl, ?_, hcount0, ?_, ?_⟩
  · unfold lwt_queue_empty
    by_cases hh : q.head = none
    · simp [hh, hcount0.mpr hh]
    · have : ¬ q.count = 0 := fun h0 => hh (hcount0.mp h0)
      simp [hh, this]
  · intro t
    cases htl' : q.tail <;> simp [lwt_queue_push_locked, htl']
  · intro hne
    obtain ⟨t, rest, rfl⟩ : ∃ t rest, l = t :: rest := by
      cases l with
      | nil => exact absurd rfl hne
      | cons t rest => exact ⟨t, rest, rfl⟩
    have hhd : q.head = some t := by
      have := chainList_head _ _ _ hc
      simpa using this
    unfold lwt_queue_pop_locked
    rw [hhd]
    exact ⟨rfl, by simp⟩

/-- C10 witness: the queue holding exactly task 5. -/
theorem c10_queue_count_witness :
    (lwt_queue_push_locked lwt_queue_init_q 5).count = (([5] : List TaskId).length : Int) ∧
    chainFrom (lwt_queue_push_locked lwt_queue_init_q 5).next ([5] : List TaskId).length
      (lwt_queue_push_locked lwt_queue_init_q 5).head = [5] ∧
    lwt_queue_size (lwt_queue_push_locked lwt_queue_init_q 5) =
      (lwt_queue_push_locked lwt_queue_init_q 5).count ∧
    (lwt_queue_empty (lwt_queue_push_locked lwt_queue_init_q 5) = 1 ↔
      (lwt_queue_push_locked lwt_queue_init_q 5).count = 0) ∧
    ((lwt_queue_push_locked lwt_queue_init_q 5).count = 0 ↔
      (lwt_queue_push_locked lwt_queue_init_q 5).head = none) ∧
    (∀ t : TaskId, (lwt_queue_push_locked (lwt_queue_push_locked lwt_queue_init_q 5) t).count =
      (lwt_queue_push_locked lwt_queue_init_q 5).count + 1) ∧
    (([5] : List TaskId) ≠ [] →
      (lwt_queue_pop_locked (lwt_queue_push_locked lwt_queue_init_q 5)).1.count =
        (lwt_queue_push_locked lwt_queue_init_q 5).count - 1 ∧
      (lwt_queue_pop_locked (lwt_queue_push_locked lwt_queue_init_q 5)).2 ≠ none) :=
  c10_queue_count (lwt_queue_push_locked lwt_queue_init_q 5) [5]
    (QReachL.push lwt_queue_init_q [] 5 QReachL.init (by simp))

/-! ## Observer lemmas for the composite operations and the invariant
transfer lemma. -/

@[simp] theorem setQueue_queue (s : Sched) (q : List TaskId) : (s.setQueue q).queue = q := rfl

@[simp] theorem setQueue_stateOf (s : Sched) (q : List TaskId) (j : TaskId) :
    (s.setQueue q).stateOf j = s.stateOf j := rfl

@[simp] theorem setQueue_waitingOf (s : Sched) (q : List TaskId) (j : TaskId) :
    (s.setQueue q).waitingOf j = s.waitingOf j := rfl

@[simp] theorem setQueue_running (s : Sched) (q : List TaskId) :
    (s.setQueue q).running = s.running := rfl

@[simp] theorem setQueue_sleeping (s : Sched) (q : List TaskId) :
    (s.setQueue q).sleeping = s.sleeping := rfl

theorem create_queue (s : Sched) (id : TaskId) :
    (lwt_create_state s id).queue = s.queue ++ [id] := rfl

theorem create_stateOf_self (s : Sched) (id : TaskId) :
    (lwt_create_state s id).stateOf id = some LwtState.READY := by
  unfold lwt_create_state lwt_scheduler_add_thread_state
  rw [signalCond_stateOf, pushReady_stateOf]
  exact stateOf_setState_self LwtState.READY (stateOf_thread_init_new_self s id)

theorem create_stateOf_ne (s : Sched) (id j : TaskId) (h : j ≠ id) :
    (lwt_create_state s id).stateOf j = s.stateOf j := by
  unfold lwt_create_state lwt_scheduler_add_thread_state
  rw [signalCond_stateOf, pushReady_stateOf, stateOf_setState_of_ne LwtState.READY h]
  exact stateOf_thread_init_new_of_ne s id j h

theorem create_waitingOf_self (s : Sched) (id : TaskId) :
    (lwt_create_state s id).waitingOf id = none := by
  unfold lwt_create_state lwt_scheduler_add_thread_state
  rw [signalCond_waitingOf, pushReady_waitingOf, waitingOf_setState]
  exact waitingOf_thread_init_new_self s id

theorem create_waitingOf_ne (s : Sched) (id j : TaskId) (h : j ≠ id) :
    (lwt_create_state s id).waitingOf j = s.waitingOf j := by
  unfold lwt_create_state lwt_scheduler_add_thread_state
  rw [signalCond_waitingOf, pushReady_waitingOf, waitingOf_setState]
  exact waitingOf_thread_init_new_of_ne s id j h

theorem create_running (s : Sched) (id : TaskId) :
    (lwt_create_state s id).running = s.running := rfl

theorem create_sleeping (s : Sched) (id : TaskId) :
    (lwt_create_state s id).sleeping = s.sleeping := rfl

theorem worker_dispatch_cons (s : Sched) (w : Nat) (id : TaskId) (rest : List TaskId)
    (h : s.queue = id :: rest) :
    lwt_worker_dispatch s w =
      ((((s.setState id LwtState.RUNNING).setQueue rest).setRunning w id), some id) := by
  unfold lwt_worker_dispatch
  rw [h]

/-- SchedInv only depends on the queue, the task states, the joiner
back-links, the sleep flags and the running slots. -/
theorem SchedInv.of_eq_observers (s s' : Sched)
    (hq : s'.queue = s.queue) (hst : ∀ j, s'.stateOf j = s.stateOf j)
    (hw : ∀ j, s'.waitingOf j = s.waitingOf j) (hsl : s'.sleeping = s.sleeping)
    (hr : s'.running = s.running) (h : SchedInv s) : SchedInv s' := by
  obtain ⟨i1, nodup, rstate, rinj, wblocked, wuniq, wnosleep, slblocked, finw⟩ := h
  constructor
  · intro id
    rw [hq, hst]
    exact i1 id
  · rw [hq]; exact nodup
  · intro w id hrun
    rw [hst]
    exact rstate w id (by rwa [hr] at hrun)
  · intro w1 w2 id h1 h2
    exact rinj w1 w2 id (by rwa [hr] at h1) (by rwa [hr] at h2)
  · intro u j hwp
    rw [hst]
    exact wblocked u j (by rwa [hw] at hwp)
  · intro u1 u2 j h1 h2
    exact wuniq u1 u2 j (by rwa [hw] at h1) (by rwa [hw] at h2)
  · intro u j hwp
    rw [hsl]
    exact wnosleep u j (by rwa [hw] at hwp)
  · intro id hslp
    rw [hst]
    exact slblocked id (by rwa [hsl] at hslp)
  · intro id hfin
    rw [hw]
    exact finw id (by rwa [hst] at hfin)

/-! ## Invariant preservation, one lemma per critical section. -/

theorem inv_init (n : Int) (s : Sched) (h : lwt_scheduler_init_state n = some s) :
    SchedInv s := by
  unfold lwt_scheduler_init_state at h
  by_cases hc : n ≤ 0 ∨ LWT_MAX_WORKERS < n
  · rw [if_pos hc] at h
    exact absurd h (by simp)
  · rw [if_neg hc] at h
    injection h with h'
    subst h'
    constructor <;> intros <;> simp_all [Sched.stateOf, Sched.waitingOf]

theorem inv_start (s : Sched) (h : SchedInv s) : SchedInv (lwt_scheduler_start_state s) := by
  unfold lwt_scheduler_start_state
  by_cases hf : s.runningFlag
  · rw [if_pos hf]
    exact h
  · rw [if_neg hf]
    exact SchedInv.of_eq_observers s _ rfl (fun j => rfl) (fun j => rfl) rfl rfl h

theorem inv_stop (s : Sched) (h : SchedInv s) : SchedInv (lwt_scheduler_stop_state s) := by
  unfold lwt_scheduler_stop_state
  by_cases hf : s.runningFlag
  · rw [if_pos hf]
    exact SchedInv.of_eq_observers s _ rfl (fun j => rfl) (fun j => rfl) rfl rfl h
  · rw [if_neg hf]
    exact h

theorem inv_spawn (s : Sched) (id : TaskId) (hfree : s.tasks id = none) (h : SchedInv s) :
    SchedInv (lwt_create_state s id) := by
  obtain ⟨i1, nodup, rstate, rinj, wblocked, wuniq, wnosleep, slblocked, finw⟩ := h
  have hfree' : s.stateOf id = none := by
    unfold Sched.stateOf
    rw [hfree]
    rfl
  have hidq : id ∉ s.queue := by
    intro hm
    have := (i1 id).mp hm
    rw [hfree'] at this
    exact absurd this (by simp)
  constructor
  · intro jd
    rw [create_queue]
    by_cases hj : jd = id
    · subst hj
      rw [create_stateOf_self]
      simp
    · rw [create_stateOf_ne s id jd hj, List.mem_append]
      constructor
      · rintro (hm | hm)
        · exact (i1 jd).mp hm
        · simp at hm
          exact absurd hm hj
      · intro hst
        exact Or.inl ((i1 jd).mpr hst)
  · rw [create_queue]
    exact nodup_append_singleton nodup hidq
  · intro w jd hr
    rw [create_running] at hr
    have hold := rstate w jd hr
    by_cases hj : jd = id
    · subst hj
      rw [hfree'] at hold
      rcases hold with h' | h' <;> exact absurd h' (by simp)
    · rw [create_stateOf_ne s id jd hj]
      exact hold
  · intro w1 w2 jd h1 h2
    rw [create_running] at h1 h2
    exact rinj w1 w2 jd h1 h2
  · intro u j hwp
    by_cases hu : u = id
    · subst hu
      rw [create_waitingOf_self] at hwp
      exact absurd hwp (by simp)
    · rw [create_waitingOf_ne s id u hu] at hwp
      have hold := wblocked u j hwp
      by_cases hj : j = id
      · subst hj
        rw [hfree'] at hold
        exact absurd hold (by simp)
      · rw [create_stateOf_ne s id j hj]
        exact hold
  · intro u1 u2 j h1 h2
    by_cases hu1 : u1 = id
    · subst hu1
      rw [create_waitingOf_self] at h1
      exact absurd h1 (by simp)
    · by_cases hu2 : u2 = id
      · subst hu2
        rw [create_waitingOf_self] at h2
        exact absurd h2 (by simp)
      · rw [create_waitingOf_ne s id u1 hu1] at h1
        rw [create_waitingOf_ne s id u2 hu2] at h2
        exact wuniq u1 u2 j h1 h2
  · intro u j hwp
    rw [create_sleeping]
    by_cases hu : u = id
    · subst hu
      rw [create_waitingOf_self] at hwp
      exact absurd hwp (by simp)
    · rw [create_waitingOf_ne s id u hu] at hwp
      exact wnosleep u j hwp
  · intro jd hslp
    rw [create_sleeping] at hslp
    have hold := slblocked jd hslp
    by_cases hj : jd = id
    · subst hj
      rw [hfree'] at hold
      exact absurd hold (by simp)
    · rw [create_stateOf_ne s id jd hj]
      exact hold
  · intro jd hfin
    by_cases hj : jd = id
    · subst hj
      rw [create_stateOf_self] at hfin
      exact absurd hfin (by simp)
    · rw [create_stateOf_ne s id jd hj] at hfin
      rw [create_waitingOf_ne s id jd hj]
      exact finw jd hfin

theorem inv_dispatch (s : Sched) (w : Nat) (h : SchedInv s) :
    SchedInv (lwt_worker_dispatch s w).1 := by
  cases hq : s.queue with
  | nil =>
      unfold lwt_worker_dispatch
      rw [hq]
      exact h
  | cons id rest =>
      rw [worker_dispatch_cons s w id rest hq]
      obtain ⟨i1, nodup, rstate, rinj, wblocked, wuniq, wnosleep, slblocked, finw⟩ := h
      have hready : s.stateOf id = some LwtState.READY :=
        (i1 id).mp (by rw [hq]; exact List.mem_cons_self id rest)
      have hnd' : id ∉ rest ∧ rest.Nodup := by
        rw [hq] at nodup
        exact List.nodup_cons.mp nodup
      have hsOf : ∀ j, j ≠ id →
          (((s.setState id LwtState.RUNNING).setQueue rest).setRunning w id).stateOf j =
            s.stateOf j := by
        intro j hj
        rw [setRunning_stateOf, setQueue_stateOf, stateOf_setState_of_ne _ hj]
      have hsSelf :
          (((s.setState id LwtState.RUNNING).setQueue rest).setRunning w id).stateOf id =
            some LwtState.RUNNING := by
        rw [setRunning_stateOf, setQueue_stateOf]
        exact stateOf_setState_self _ hready
      have hwOf : ∀ j,
          (((s.setState id LwtState.RUNNING).setQueue rest).setRunning w id).waitingOf j =
            s.waitingOf j := by
        intro j
        rw [setRunning_waitingOf, setQueue_waitingOf, waitingOf_setState]
      constructor
      · intro jd
        rw [setRunning_queue, setQueue_queue]
        by_cases hj : jd = id
        · subst hj
          rw [hsSelf]
          simp [hnd'.1]
        · rw [hsOf jd hj]
          constructor
          · intro hm
            exact (i1 jd).mp (by rw [hq]; exact List.mem_cons_of_mem _ hm)
          · intro hst
            have hmem := (i1 jd).mpr hst
            rw [hq] at hmem
            rcases List.mem_cons.mp hmem with h' | h'
            · exact absurd h' hj
            · exact h'
      · rw [setRunning_queue, setQueue_queue]
        exact hnd'.2
      · intro w' jd hr
        rw [setRunning_running, setQueue_running, setState_running] at hr
        by_cases hww : w' = w
        · subst hww
          rw [Function.update_same] at hr
          injection hr with hr'
          subst hr'
          rw [hsSelf]
          exact Or.inl rfl
        · rw [Function.update_noteq hww] at hr
          have hold := rstate w' jd hr
          by_cases hj : jd = id
          · subst hj
            rw [hready] at hold
            rcases hold with h' | h' <;> exact absurd h' (by simp)
          · rw [hsOf jd hj]
            exact hold
      · intro w1 w2 jd h1 h2
        rw [setRunning_running, setQueue_running, setState_running] at h1 h2
        by_cases h1w : w1 = w <;> by_cases h2w : w2 = w
        · rw [h1w, h2w]
        · subst h1w
          rw [Function.update_same] at h1
          rw [Function.update_noteq h2w] at h2
          injection h1 with h1'
          subst h1'
          have hold := rstate w2 id h2
          rw [hready] at hold
          rcases hold with h' | h' <;> exact absurd h' (by simp)
        · subst h2w
          rw [Function.update_same] at h2
          rw [Function.update_noteq h1w] at h1
          injection h2 with h2'
          subst h2'
          have hold := rstate w1 id h1
          rw [hready] at hold
          rcases hold with h' | h' <;> exact absurd h' (by simp)
        · rw [Function.update_noteq h1w] at h1
          rw [Function.update_noteq h2w] at h2
          exact rinj w1 w2 jd h1 h2
      · intro u j hwp
        rw [hwOf] at hwp
        have hold := wblocked u j hwp
        by_cases hj : j = id
        · subst hj
          rw [hready] at hold
          exact absurd hold (by simp)
        · rw [hsOf j hj]
          exact hold
      · intro u1 u2 j h1 h2
        rw [hwOf] at h1 h2
        exact wuniq u1 u2 j h1 h2
      · intro u j hwp
        rw [hwOf] at hwp
        rw [setRunning_sleeping, setQueue_sleeping, setState_sleeping]
        exact wnosleep u j hwp
      · intro jd hslp
        rw [setRunning_sleeping, setQueue_sleeping, setState_sleeping] at hslp
        have hold := slblocked jd hslp
        by_cases hj : jd = id
        · subst hj
          rw [hready] at hold
          exact absurd hold (by simp)
        · rw [hsOf jd hj]
          exact hold
      · intro jd hfin
        by_cases hj : jd = id
        · subst hj
          rw [hsSelf] at hfin
          exact absurd hfin (by simp)
        · rw [hsOf jd hj] at hfin
          rw [hwOf]
          exact finw jd hfin

theorem inv_yield (s : Sched) (w : Nat) (id : TaskId) (hw : w < s.numWorkers)
    (hcur : s.running w = some id) (h : SchedInv s) :
    SchedInv (lwt_yield_state s (some id) (w : Int)).1 := by
  obtain ⟨i1, nodup, rstate, rinj, wblocked, wuniq, wnosleep, slblocked, finw⟩ := h
  have hcond : ¬((w : Int) < 0 ∨ (s.numWorkers : Int) ≤ (w : Int)) := by omega
  rw [lwt_yield_state_some s id (w : Int) hcond]
  have htn : ((w : Int)).toNat = w := Int.toNat_natCast w
  rcases rstate w id hcur with hrun | hfin
  · have hif : s.stateOf id ≠ some LwtState.FINISHED := by
      rw [hrun]
      simp
    rw [if_pos hif, htn]
    have hidq : id ∉ s.queue := by
      intro hm
      have hmem := (i1 id).mp hm
      rw [hrun] at hmem
      exact absurd hmem (by simp)
    have hsSelf : ((((s.setState id LwtState.READY).pushReady id).clearRunning
        w).signalCond).stateOf id = some LwtState.READY := by
      rw [signalCond_stateOf, clearRunning_stateOf, pushReady_stateOf]
      exact stateOf_setState_self _ hrun
    have hsOf : ∀ j, j ≠ id → ((((s.setState id LwtState.READY).pushReady id).clearRunning
        w).signalCond).stateOf j = s.stateOf j := by
      intro j hj
      rw [signalCond_stateOf, clearRunning_stateOf, pushReady_stateOf,
        stateOf_setState_of_ne _ hj]
    have hwOf : ∀ j, ((((s.setState id LwtState.READY).pushReady id).clearRunning
        w).signalCond).waitingOf j = s.waitingOf j := by
      intro j
      rw [signalCond_waitingOf, clearRunning_waitingOf, pushReady_waitingOf,
        waitingOf_setState]
    have hq : ((((s.setState id LwtState.READY).pushReady id).clearRunning
        w).signalCond).queue = s.queue ++ [id] := by
      rw [signalCond_queue, clearRunning_queue, pushReady_queue, setState_queue]
    have hrr : ((((s.setState id LwtState.READY).pushReady id).clearRunning
        w).signalCond).running = Function.update s.running w none := by
      rw [signalCond_running, clearRunning_running, pushReady_running, setState_running]
    have hsl : ((((s.setState id LwtState.READY).pushReady id).clearRunning
        w).signalCond).sleeping = s.sleeping := by
      rw [signalCond_sleeping, clearRunning_sleeping, pushReady_sleeping, setState_sleeping]
    constructor
    · intro jd
      rw [hq]
      by_cases hj : jd = id
      · subst hj
        rw [hsSelf]
        simp
      · rw [hsOf jd hj, List.mem_append]
        constructor
        · rintro (hm | hm)
          · exact (i1 jd).mp hm
          · simp at hm
            exact absurd hm hj
        · intro hst
          exact Or.inl ((i1 jd).mpr hst)
    · rw [hq]
      exact nodup_append_singleton nodup hidq
    · intro w' jd hr
      rw [hrr] at hr
      by_cases hww : w' = w
      · subst hww
        rw [Function.update_same] at hr
        exact absurd hr (by simp)
      · rw [Function.update_noteq hww] at hr
        have hold := rstate w' jd hr
        by_cases hj : jd = id
        · subst hj
          exact absurd (rinj w' w jd hr hcur) hww
        · rw [hsOf jd hj]
          exact hold
    · intro w1 w2 jd h1 h2
      rw [hrr] at h1 h2
      by_cases h1w : w1 = w
      · subst h1w
        rw [Function.update_same] at h1
        exact absurd h1 (by simp)
      · by_cases h2w : w2 = w
        · subst h2w
          rw [Function.update_same] at h2
          exact absurd h2 (by simp)
        · rw [Function.update_noteq h1w] at h1
          rw [Function.update_noteq h2w] at h2
          exact rinj w1 w2 jd h1 h2
    · intro u j hwp
      rw [hwOf] at hwp
      have hold := wblocked u j hwp
      by_cases hj : j = id
      · subst hj
        rw [hrun] at hold
        exact absurd hold (by simp)
      · rw [hsOf j hj]
        exact hold
    · intro u1 u2 j h1 h2
      rw [hwOf] at h1 h2
      exact wuniq u1 u2 j h1 h2
    · intro u j hwp
      rw [hwOf] at hwp
      rw [hsl]
      exact wnosleep u j hwp
    · intro jd hslp
      rw [hsl] at hslp
      have hold := slblocked jd hslp
      by_cases hj : jd = id
      · subst hj
        rw [hrun] at hold
        exact absurd hold (by simp)
      · rw [hsOf jd hj]
        exact hold
    · intro jd hfin'
      by_cases hj : jd = id
      · subst hj
        rw [hsSelf] at hfin'
        exact absurd hfin' (by simp)
      · rw [hsOf jd hj] at hfin'
        rw [hwOf]
        exact finw jd hfin'
  · have hif : ¬ s.stateOf id ≠ some LwtState.FINISHED := by simp [hfin]
    rw [if_neg hif, htn]
    constructor
    · intro jd
      rw [signalCond_queue, clearRunning_queue, signalCond_stateOf, clearRunning_stateOf]
      exact i1 jd
    · rw [signalCond_queue, clearRunning_queue]
      exact nodup
    · intro w' jd hr
      rw [signalCond_running, clearRunning_running] at hr
      by_cases hww : w' = w
      · subst hww
        rw [Function.update_same] at hr
        exact absurd hr (by simp)
      · rw [Function.update_noteq hww] at hr
        rw [signalCond_stateOf, clearRunning_stateOf]
        exact rstate w' jd hr
    · intro w1 w2 jd h1 h2
      rw [signalCond_running, clearRunning_running] at h1 h2
      by_cases h1w : w1 = w
      · subst h1w
        rw [Function.update_same] at h1
        exact absurd h1 (by simp)
      · by_cases h2w : w2 = w
        · subst h2w
          rw [Function.update_same] at h2
          exact absurd h2 (by simp)
        · rw [Function.update_noteq h1w] at h1
          rw [Function.update_noteq h2w] at h2
          exact rinj w1 w2 jd h1 h2
    · intro u j hwp
      rw [signalCond_waitingOf, clearRunning_waitingOf] at hwp
      rw [signalCond_stateOf, clearRunning_stateOf]
      exact wblocked u j hwp
    · intro u1 u2 j h1 h2
      rw [signalCond_waitingOf, clearRunning_waitingOf] at h1 h2
      exact wuniq u1 u2 j h1 h2
    · intro u j hwp
      rw [signalCond_waitingOf, clearRunning_waitingOf] at hwp
      rw [signalCond_sleeping, clearRunning_sleeping]
      exact wnosleep u j hwp
    · intro jd hslp
      rw [signalCond_sleeping, clearRunning_sleeping] at hslp
      rw [signalCond_stateOf, clearRunning_stateOf]
      exact slblocked jd hslp
    · intro jd hfin'
      rw [signalCond_stateOf, clearRunning_stateOf] at hfin'
      rw [signalCond_waitingOf, clearRunning_waitingOf]
      exact finw jd hfin'

theorem inv_join (s : Sched) (w : Nat) (self tgt : TaskId) (hw : w < s.numWorkers)
    (hcur : s.running w = some self) (htgt : s.tasks tgt ≠ none) (h : SchedInv s) :
    SchedInv (lwt_join_state s (some tgt) (some self) (w : Int)).1 := by
  have hcond : ¬((w : Int) < 0 ∨ (s.numWorkers : Int) ≤ (w : Int)) := by omega
  by_cases hguard : s.stateOf tgt = some LwtState.FINISHED
  · rw [lwt_join_state_finished s tgt self (w : Int) hcond hguard]
    exact h
  · rw [lwt_join_state_blocks s tgt self (w : Int) hcond hguard]
    have htn : ((w : Int)).toNat = w := Int.toNat_natCast w
    rw [htn]
    obtain ⟨i1, nodup, rstate, rinj, wblocked, wuniq, wnosleep, slblocked, finw⟩ := h
    have hselfSt := rstate w self hcur
    obtain ⟨st0, hst0⟩ : ∃ st0, s.stateOf self = some st0 := by
      rcases hselfSt with h' | h'
      · exact ⟨_, h'⟩
      · exact ⟨_, h'⟩
    have hselfNotReady : s.stateOf self ≠ some LwtState.READY := by
      rcases hselfSt with h' | h' <;> rw [h'] <;> simp
    have hselfNotBlocked : s.stateOf self ≠ some LwtState.BLOCKED := by
      rcases hselfSt with h' | h' <;> rw [h'] <;> simp
    obtain ⟨stT, hstT⟩ : ∃ stT, (s.setState self LwtState.BLOCKED).stateOf tgt = some stT := by
      rw [stateOf_isSome_iff]
      intro hnone
      exact htgt ((tasks_setState_ne_none_iff s self tgt LwtState.BLOCKED).mp hnone)
    have hsSelf : (((s.setState self LwtState.BLOCKED).setWaiting tgt
        (some self)).clearRunning w).stateOf self = some LwtState.BLOCKED := by
      rw [clearRunning_stateOf, stateOf_setWaiting]
      exact stateOf_setState_self _ hst0
    have hsOf : ∀ j, j ≠ self → (((s.setState self LwtState.BLOCKED).setWaiting tgt
        (some self)).clearRunning w).stateOf j = s.stateOf j := by
      intro j hj
      rw [clearRunning_stateOf, stateOf_setWaiting, stateOf_setState_of_ne _ hj]
    have hwTgt : (((s.setState self LwtState.BLOCKED).setWaiting tgt
        (some self)).clearRunning w).waitingOf tgt = some self := by
      rw [clearRunning_waitingOf]
      exact waitingOf_setWaiting_self (some self) hstT
    have hwOf : ∀ u, u ≠ tgt → (((s.setState self LwtState.BLOCKED).setWaiting tgt
        (some self)).clearRunning w).waitingOf u = s.waitingOf u := by
      intro u hu
      rw [clearRunning_waitingOf, waitingOf_setWaiting_of_ne _ hu, waitingOf_setState]
    have hq : (((s.setState self LwtState.BLOCKED).setWaiting tgt
        (some self)).clearRunning w).queue = s.queue := by
      rw [clearRunning_queue, setWaiting_queue, setState_queue]
    have hrr : (((s.setState self LwtState.BLOCKED).setWaiting tgt
        (some self)).clearRunning w).running = Function.update s.running w none := by
      rw [clearRunning_running, setWaiting_running, setState_running]
    have hsl : (((s.setState self LwtState.BLOCKED).setWaiting tgt
        (some self)).clearRunning w).sleeping = s.sleeping := by
      rw [clearRunning_sleeping, setWaiting_sleeping, setState_sleeping]
    have hsleepSelf : s.sleeping self = false := by
      cases hsl' : s.sleeping self with
      | false => rfl
      | true => exact absurd (slblocked self hsl') hselfNotBlocked
    have hselfQ : self ∉ s.queue := fun hm => hselfNotReady ((i1 self).mp hm)
    constructor
    · intro jd
      rw [hq]
      by_cases hj : jd = self
      · subst hj
        rw [hsSelf]
        simp [hselfQ]
      · rw [hsOf jd hj]
        exact i1 jd
    · rw [hq]
      exact nodup
    · intro w' jd hr
      rw [hrr] at hr
      by_cases hww : w' = w
      · subst hww
        rw [Function.update_same] at hr
        exact absurd hr (by simp)
      · rw [Function.update_noteq hww] at hr
        have hold := rstate w' jd hr
        by_cases hj : jd = self
        · subst hj
          exact absurd (rinj w' w jd hr hcur) hww
        · rw [hsOf jd hj]
          exact hold
    · intro w1 w2 jd h1 h2
      rw [hrr] at h1 h2
      by_cases h1w : w1 = w
      · subst h1w
        rw [Function.update_same] at h1
        exact absurd h1 (by simp)
      · by_cases h2w : w2 = w
        · subst h2w
          rw [Function.update_same] at h2
          exact absurd h2 (by simp)
        · rw [Function.update_noteq h1w] at h1
          rw [Function.update_noteq h2w] at h2
          exact rinj w1 w2 jd h1 h2
    · intro u j hwp
      by_cases hu : u = tgt
      · subst hu
        rw [hwTgt] at hwp
        injection hwp with hwp'
        subst hwp'
        exact hsSelf
      · rw [hwOf u hu] at hwp
        have hold := wblocked u j hwp
        by_cases hj : j = self
        · subst hj
          exact absurd hold hselfNotBlocked
        · rw [hsOf j hj]
          exact hold
    · intro u1 u2 j h1 h2
      by_cases h1t : u1 = tgt
      · by_cases h2t : u2 = tgt
        · rw [h1t, h2t]
        · subst h1t
          rw [hwTgt] at h1
          injection h1 with h1'
          subst h1'
          rw [hwOf u2 h2t] at h2
          exact absurd (wblocked u2 _ h2) hselfNotBlocked
      · by_cases h2t : u2 = tgt
        · subst h2t
          rw [hwTgt] at h2
          injection h2 with h2'
          subst h2'
          rw [hwOf u1 h1t] at h1
          exact absurd (wblocked u1 _ h1) hselfNotBlocked
        · rw [hwOf u1 h1t] at h1
          rw [hwOf u2 h2t] at h2
          exact wuniq u1 u2 j h1 h2
    · intro u j hwp
      rw [hsl]
      by_cases hu : u = tgt
      · subst hu
        rw [hwTgt] at hwp
        injection hwp with hwp'
        subst hwp'
        exact hsleepSelf
      · rw [hwOf u hu] at hwp
        exact wnosleep u j hwp
    · intro jd hslp
      rw [hsl] at hslp
      have hold := slblocked jd hslp
      by_cases hj : jd = self
      · subst hj
        exact absurd hold hselfNotBlocked
      · rw [hsOf jd hj]
        exact hold
    · intro jd hfin'
      by_cases hj : jd = self
      · subst hj
        rw [hsSelf] at hfin'
        exact absurd hfin' (by simp)
      · rw [hsOf jd hj] at hfin'
        have hjt : jd ≠ tgt := by
          intro h'
          rw [h'] at hfin'
          exact hguard hfin'
        rw [hwOf jd hjt]
        exact finw jd hfin'

theorem inv_sleep_block (s : Sched) (w : Nat) (id : TaskId) (hw : w < s.numWorkers)
    (hcur : s.running w = some id) (h : SchedInv s) :
    SchedInv (lwt_sleep_block s id (w : Int)) := by
  obtain ⟨i1, nodup, rstate, rinj, wblocked, wuniq, wnosleep, slblocked, finw⟩ := h
  unfold lwt_sleep_block
  have htn : ((w : Int)).toNat = w := Int.toNat_natCast w
  rw [htn]
  have hselfSt := rstate w id hcur
  obtain ⟨st0, hst0⟩ : ∃ st0, s.stateOf id = some st0 := by
    rcases hselfSt with h' | h'
    · exact ⟨_, h'⟩
    · exact ⟨_, h'⟩
  have hselfNotReady : s.stateOf id ≠ some LwtState.READY := by
    rcases hselfSt with h' | h' <;> rw [h'] <;> simp
  have hselfNotBlocked : s.stateOf id ≠ some LwtState.BLOCKED := by
    rcases hselfSt with h' | h' <;> rw [h'] <;> simp
  have hselfQ : id ∉ s.queue := fun hm => hselfNotReady ((i1 id).mp hm)
  have hsSelf : (((s.setState id LwtState.BLOCKED).clearRunning w).setSleeping id
      true).stateOf id = some LwtState.BLOCKED := by
    rw [setSleeping_stateOf, clearRunning_stateOf]
    exact stateOf_setState_self _ hst0
  have hsOf : ∀ j, j ≠ id → (((s.setState id LwtState.BLOCKED).clearRunning w).setSleeping id
      true).stateOf j = s.stateOf j := by
    intro j hj
    rw [setSleeping_stateOf, clearRunning_stateOf, stateOf_setState_of_ne _ hj]
  have hwOf : ∀ u, (((s.setState id LwtState.BLOCKED).clearRunning w).setSleeping id
      true).waitingOf u = s.waitingOf u := by
    intro u
    rw [setSleeping_waitingOf, clearRunning_waitingOf, waitingOf_setState]
  have hq : (((s.setState id LwtState.BLOCKED).clearRunning w).setSleeping id
      true).queue = s.queue := by
    rw [setSleeping_queue, clearRunning_queue, setState_queue]
  have hrr : (((s.setState id LwtState.BLOCKED).clearRunning w).setSleeping id
      true).running = Function.update s.running w none := by
    rw [setSleeping_running, clearRunning_running, setState_running]
  have hsl : (((s.setState id LwtState.BLOCKED).clearRunning w).setSleeping id
      true).sleeping = Function.update s.sleeping id true := by
    rw [setSleeping_sleeping, clearRunning_sleeping, setState_sleeping]
  constructor
  · intro jd
    rw [hq]
    by_cases hj : jd = id
    · subst hj
      rw [hsSelf]
      simp [hselfQ]
    · rw [hsOf jd hj]
      exact i1 jd
  · rw [hq]
    exact nodup
  · intro w' jd hr
    rw [hrr] at hr
    by_cases hww : w' = w
    · subst hww
      rw [Function.update_same] at hr
      exact absurd hr (by simp)
    · rw [Function.update_noteq hww] at hr
      have hold := rstate w' jd hr
      by_cases hj : jd = id
      · subst hj
        exact absurd (rinj w' w jd hr hcur) hww
      · rw [hsOf jd hj]
        exact hold
  · intro w1 w2 jd h1 h2
    rw [hrr] at h1 h2
    by_cases h1w : w1 = w
    · subst h1w
      rw [Function.update_same] at h1
      exact absurd h1 (by simp)
    · by_cases h2w : w2 = w
      · subst h2w
        rw [Function.update_same] at h2
        exact absurd h2 (by simp)
      · rw [Function.update_noteq h1w] at h1
        rw [Function.update_noteq h2w] at h2
        exact rinj w1 w2 jd h1 h2
  · intro u j hwp
    rw [hwOf] at hwp
    have hold := wblocked u j hwp
    by_cases hj : j = id
    · subst hj
      exact absurd hold hselfNotBlocked
    · rw [hsOf j hj]
      exact hold
  · intro u1 u2 j h1 h2
    rw [hwOf] at h1 h2
    exact wuniq u1 u2 j h1 h2
  · intro u j hwp
    rw [hwOf] at hwp
    rw [hsl]
    have hj : j ≠ id := by
      intro h'
      subst h'
      exact absurd (wblocked u j hwp) hselfNotBlocked
    rw [Function.update_noteq hj]
    exact wnosleep u j hwp
  · intro jd hslp
    rw [hsl] at hslp
    by_cases hj : jd = id
    · subst hj
      exact hsSelf
    · rw [Function.update_noteq hj] at hslp
      rw [hsOf jd hj]
      exact slblocked jd hslp
  · intro jd hfin'
    by_cases hj : jd = id
    · subst hj
      rw [hsSelf] at hfin'
      exact absurd hfin' (by simp)
    · rw [hsOf jd hj] at hfin'
      rw [hwOf]
      exact finw jd hfin'

theorem inv_sleep_wake (s : Sched) (id : TaskId) (hslp0 : s.sleeping id = true)
    (h : SchedInv s) : SchedInv (lwt_sleep_wake s id) := by
  obtain ⟨i1, nodup, rstate, rinj, wblocked, wuniq, wnosleep, slblocked, finw⟩ := h
  unfold lwt_sleep_wake
  have hblocked : s.stateOf id = some LwtState.BLOCKED := slblocked id hslp0
  have hselfQ : id ∉ s.queue := by
    intro hm
    have := (i1 id).mp hm
    rw [hblocked] at this
    exact absurd this (by simp)
  have hnoptr : ∀ u, s.waitingOf u ≠ some id := by
    intro u h'
    have := wnosleep u id h'
    rw [hslp0] at this
    exact absurd this (by simp)
  have hsSelf : ((((s.setState id LwtState.READY).pushReady id).signalCond).setSleeping id
      false).stateOf id = some LwtState.READY := by
    rw [setSleeping_stateOf, signalCond_stateOf, pushReady_stateOf]
    exact stateOf_setState_self _ hblocked
  have hsOf : ∀ j, j ≠ id → ((((s.setState id LwtState.READY).pushReady id).signalCond).setSleeping
      id false).stateOf j = s.stateOf j := by
    intro j hj
    rw [setSleeping_stateOf, signalCond_stateOf, pushReady_stateOf, stateOf_setState_of_ne _ hj]
  have hwOf : ∀ u, ((((s.setState id LwtState.READY).pushReady id).signalCond).setSleeping id
      false).waitingOf u = s.waitingOf u := by
    intro u
    rw [setSleeping_waitingOf, signalCond_waitingOf, pushReady_waitingOf, waitingOf_setState]
  have hq : ((((s.setState id LwtState.READY).pushReady id).signalCond).setSleeping id
      false).queue = s.queue ++ [id] := by
    rw [setSleeping_queue, signalCond_queue, pushReady_queue, setState_queue]
  have hrr : ((((s.setState id LwtState.READY).pushReady id).signalCond).setSleeping id
      false).running = s.running := by
    rw [setSleeping_running, signalCond_running, pushReady_running, setState_running]
  have hsl : ((((s.setState id LwtState.READY).pushReady id).signalCond).setSleeping id
      false).sleeping = Function.update s.sleeping id false := by
    rw [setSleeping_sleeping, signalCond_sleeping, pushReady_sleeping, setState_sleeping]
  constructor
  · intro jd
    rw [hq]
    by_cases hj : jd = id
    · subst hj
      rw [hsSelf]
      simp
    · rw [hsOf jd hj, List.mem_append]
      constructor
      · rintro (hm | hm)
        · exact (i1 jd).mp hm
        · simp at hm
          exact absurd hm hj
      · intro hst
        exact Or.inl ((i1 jd).mpr hst)
  · rw [hq]
    exact nodup_append_singleton nodup hselfQ
  · intro w' jd hr
    rw [hrr] at hr
    have hold := rstate w' jd hr
    by_cases hj : jd = id
    · subst hj
      rw [hblocked] at hold
      rcases hold with h' | h' <;> exact absurd h' (by simp)
    · rw [hsOf jd hj]
      exact hold
  · intro w1 w2 jd h1 h2
    rw [hrr] at h1 h2
    exact rinj w1 w2 jd h1 h2
  · intro u j hwp
    rw [hwOf] at hwp
    have hold := wblocked u j hwp
    by_cases hj : j = id
    · subst hj
      exact absurd hwp (hnoptr u)
    · rw [hsOf j hj]
      exact hold
  · intro u1 u2 j h1 h2
    rw [hwOf] at h1 h2
    exact wuniq u1 u2 j h1 h2
  · intro u j hwp
    rw [hwOf] at hwp
    rw [hsl]
    by_cases hj : j = id
    · subst hj
      exact absurd hwp (hnoptr u)
    · rw [Function.update_noteq hj]
      exact wnosleep u j hwp
  · intro jd hslp
    rw [hsl] at hslp
    by_cases hj : jd = id
    · subst hj
      rw [Function.update_same] at hslp
      exact absurd hslp (by simp)
    · rw [Function.update_noteq hj] at hslp
      rw [hsOf jd hj]
      exact slblocked jd hslp
  · intro jd hfin'
    by_cases hj : jd = id
    · subst hj
      rw [hsSelf] at hfin'
      exact absurd hfin' (by simp)
    · rw [hsOf jd hj] at hfin'
      rw [hwOf]
      exact finw jd hfin'

theorem inv_finish (s : Sched) (w : Nat) (id : TaskId) (hw : w < s.numWorkers)
    (hcur : s.running w = some id) (h : SchedInv s) :
    SchedInv (lwt_thread_start_finish s id) := by
  obtain ⟨i1, nodup, rstate, rinj, wblocked, wuniq, wnosleep, slblocked, finw⟩ := h
  have hselfSt := rstate w id hcur
  have hselfNotReady : s.stateOf id ≠ some LwtState.READY := by
    rcases hselfSt with h' | h' <;> rw [h'] <;> simp
  have hselfNotBlocked : s.stateOf id ≠ some LwtState.BLOCKED := by
    rcases hselfSt with h' | h' <;> rw [h'] <;> simp
  have hselfQ : id ∉ s.queue := fun hm => hselfNotReady ((i1 id).mp hm)
  rw [lwt_thread_start_finish_eq]
  cases hwait : s.waitingOf id with
  | none =>
      obtain ⟨st0, hst0⟩ : ∃ st0, s.stateOf id = some st0 := by
        rcases hselfSt with h' | h'
        · exact ⟨_, h'⟩
        · exact ⟨_, h'⟩
      have hsSelf : (s.setState id LwtState.FINISHED).stateOf id = some LwtState.FINISHED :=
        stateOf_setState_self _ hst0
      constructor
      · intro jd
        rw [setState_queue]
        by_cases hj : jd = id
        · subst hj
          rw [hsSelf]
          simp [hselfQ]
        · rw [stateOf_setState_of_ne _ hj]
          exact i1 jd
      · rw [setState_queue]
        exact nodup
      · intro w' jd hr
        rw [setState_running] at hr
        by_cases hj : jd = id
        · subst hj
          rw [hsSelf]
          exact Or.inr rfl
        · rw [stateOf_setState_of_ne _ hj]
          exact rstate w' jd hr
      · intro w1 w2 jd h1 h2
        rw [setState_running] at h1 h2
        exact rinj w1 w2 jd h1 h2
      · intro u j hwp
        rw [waitingOf_setState] at hwp
        have hold := wblocked u j hwp
        by_cases hj : j = id
        · subst hj
          exact absurd hold hselfNotBlocked
        · rw [stateOf_setState_of_ne _ hj]
          exact hold
      · intro u1 u2 j h1 h2
        rw [waitingOf_setState] at h1 h2
        exact wuniq u1 u2 j h1 h2
      · intro u j hwp
        rw [waitingOf_setState] at hwp
        rw [setState_sleeping]
        exact wnosleep u j hwp
      · intro jd hslp
        rw [setState_sleeping] at hslp
        have hold := slblocked jd hslp
        by_cases hj : jd = id
        · subst hj
          exact absurd hold hselfNotBlocked
        · rw [stateOf_setState_of_ne _ hj]
          exact hold
      · intro jd hfin'
        rw [waitingOf_setState]
        by_cases hj : jd = id
        · subst hj
          exact hwait
        · rw [stateOf_setState_of_ne _ hj] at hfin'
          exact finw jd hfin'
  | some j0 =>
      have hj0b : s.stateOf j0 = some LwtState.BLOCKED := wblocked id j0 hwait
      have hidrun : s.stateOf id = some LwtState.RUNNING := by
        rcases hselfSt with h' | h'
        · exact h'
        · rw [finw id h'] at hwait
          exact absurd hwait (by simp)
      have hne : j0 ≠ id := by
        intro h'
        rw [h', hidrun] at hj0b
        exact absurd hj0b (by simp)
      have hj0Q : j0 ∉ s.queue := by
        intro hm
        have := (i1 j0).mp hm
        rw [hj0b] at this
        exact absurd this (by simp)
      have hj0sl : s.sleeping j0 = false := wnosleep id j0 hwait
      have hsId : (((((s.setState id LwtState.FINISHED).setState j0 LwtState.READY).pushReady
          j0).setWaiting id none).signalCond).stateOf id = some LwtState.FINISHED := by
        rw [signalCond_stateOf, stateOf_setWaiting, pushReady_stateOf,
          stateOf_setState_of_ne _ (Ne.symm hne)]
        exact stateOf_setState_self _ hidrun
      have hbb : (s.setState id LwtState.FINISHED).stateOf j0 = some LwtState.BLOCKED := by
        rw [stateOf_setState_of_ne _ hne]
        exact hj0b
      have hsJ0 : (((((s.setState id LwtState.FINISHED).setState j0 LwtState.READY).pushReady
          j0).setWaiting id none).signalCond).stateOf j0 = some LwtState.READY := by
        rw [signalCond_stateOf, stateOf_setWaiting, pushReady_stateOf]
        exact stateOf_setState_self _ hbb
      have hsOf : ∀ j, j ≠ id → j ≠ j0 →
          (((((s.setState id LwtState.FINISHED).setState j0 LwtState.READY).pushReady
            j0).setWaiting id none).signalCond).stateOf j = s.stateOf j := by
        intro j hj hj0'
        rw [signalCond_stateOf, stateOf_setWaiting, pushReady_stateOf,
          stateOf_setState_of_ne _ hj0', stateOf_setState_of_ne _ hj]
      have hwId : (((((s.setState id LwtState.FINISHED).setState j0 LwtState.READY).pushReady
          j0).setWaiting id none).signalCond).waitingOf id = none := by
        rw [signalCond_waitingOf]
        have hFin : (((s.setState id LwtState.FINISHED).setState j0 LwtState.READY).pushReady
            j0).stateOf id = some LwtState.FINISHED := by
          rw [pushReady_stateOf, stateOf_setState_of_ne _ (Ne.symm hne)]
          exact stateOf_setState_self _ hidrun
        exact waitingOf_setWaiting_self none hFin
      have hwOf : ∀ u, u ≠ id →
          (((((s.setState id LwtState.FINISHED).setState j0 LwtState.READY).pushReady
            j0).setWaiting id none).signalCond).waitingOf u = s.waitingOf u := by
        intro u hu
        rw [signalCond_waitingOf, waitingOf_setWaiting_of_ne _ hu, pushReady_waitingOf,
          waitingOf_setState, waitingOf_setState]
      have hq : (((((s.setState id LwtState.FINISHED).setState j0 LwtState.READY).pushReady
          j0).setWaiting id none).signalCond).queue = s.queue ++ [j0] := by
        rw [signalCond_queue, setWaiting_queue, pushReady_queue, setState_queue, setState_queue]
      have hrr : (((((s.setState id LwtState.FINISHED).setState j0 LwtState.READY).pushReady
          j0).setWaiting id none).signalCond).running = s.running := by
        rw [signalCond_running, setWaiting_running, pushReady_running, setState_running,
          setState_running]
      have hsl : (((((s.setState id LwtState.FINISHED).setState j0 LwtState.READY).pushReady
          j0).setWaiting id none).signalCond).sleeping = s.sleeping := by
        rw [signalCond_sleeping, setWaiting_sleeping, pushReady_sleeping, setState_sleeping,
          setState_sleeping]
      constructor
      · intro jd
        rw [hq]
        by_cases hjid : jd = id
        · subst hjid
          rw [hsId]
          simp [hselfQ, Ne.symm hne]
        · by_cases hjj0 : jd = j0
          · subst hjj0
            rw [hsJ0]
            simp
          · rw [hsOf jd hjid hjj0, List.mem_append]
            constructor
            · rintro (hm | hm)
              · exact (i1 jd).mp hm
              · simp at hm
                exact absurd hm hjj0
            · intro hst
              exact Or.inl ((i1 jd).mpr hst)
      · rw [hq]
        exact nodup_append_singleton nodup hj0Q
      · intro w' jd hr
        rw [hrr] at hr
        have hold := rstate w' jd hr
        by_cases hjid : jd = id
        · subst hjid
          rw [hsId]
          exact Or.inr rfl
        · by_cases hjj0 : jd = j0
          · subst hjj0
            rw [hj0b] at hold
            rcases hold with h' | h' <;> exact absurd h' (by simp)
          · rw [hsOf jd hjid hjj0]
            exact hold
      · intro w1 w2 jd h1 h2
        rw [hrr] at h1 h2
        exact rinj w1 w2 jd h1 h2
      · intro u j hwp
        by_cases hu : u = id
        · subst hu
          rw [hwId] at hwp
          exact absurd hwp (by simp)
        · rw [hwOf u hu] at hwp
          have hold := wblocked u j hwp
          by_cases hjid : j = id
          · subst hjid
            exact absurd hold hselfNotBlocked
          · by_cases hjj0 : j = j0
            · subst hjj0
              exact absurd (wuniq u id j hwp hwait) hu
            · rw [hsOf j hjid hjj0]
              exact hold
      · intro u1 u2 j h1 h2
        by_cases h1id : u1 = id
        · subst h1id
          rw [hwId] at h1
          exact absurd h1 (by simp)
        · by_cases h2id : u2 = id
          · subst h2id
            rw [hwId] at h2
            exact absurd h2 (by simp)
          · rw [hwOf u1 h1id] at h1
            rw [hwOf u2 h2id] at h2
            exact wuniq u1 u2 j h1 h2
      · intro u j hwp
        rw [hsl]
        by_cases hu : u = id
        · subst hu
          rw [hwId] at hwp
          exact absurd hwp (by simp)
        · rw [hwOf u hu] at hwp
          exact wnosleep u j hwp
      · intro jd hslp
        rw [hsl] at hslp
        have hold := slblocked jd hslp
        by_cases hjid : jd = id
        · subst hjid
          exact absurd hold hselfNotBlocked
        · by_cases hjj0 : jd = j0
          · subst hjj0
            rw [hj0sl] at hslp
            exact absurd hslp (by simp)
          · rw [hsOf jd hjid hjj0]
            exact hold
      · intro jd hfin'
        by_cases hjid : jd = id
        · subst hjid
          exact hwId
        · by_cases hjj0 : jd = j0
          · subst hjj0
            rw [hsJ0] at hfin'
            exact absurd hfin' (by simp)
          · rw [hsOf jd hjid hjj0] at hfin'
            rw [hwOf jd hjid]
            exact finw jd hfin'

theorem inv_step (s s' : Sched) (hstep : Step s s') (h : SchedInv s) : SchedInv s' := by
  cases hstep with
  | spawn id hfree => exact inv_spawn s id hfree h
  | start => exact inv_start s h
  | stop => exact inv_stop s h
  | dispatch w hw hrun hidle => exact inv_dispatch s w h
  | yieldStep w id hw hcur => exact inv_yield s w id hw hcur h
  | joinStep w self tgt hw hcur htgt => exact inv_join s w self tgt hw hcur htgt h
  | sleepBlock w id hw hcur => exact inv_sleep_block s w id hw hcur h
  | sleepWake id hsl => exact inv_sleep_wake s id hsl h
  | finish w id hw hcur => exact inv_finish s w id hw hcur h

theorem inv_reach (s : Sched) (h : Reach s) : SchedInv s := by
  induction h with
  | init n s0 hinit => exact inv_init n s0 hinit
  | step s0 s1 _ hs ih => exact inv_step s0 s1 hs ih

theorem init_state_one : lwt_scheduler_init_state 1 = some schedOne := by
  norm_num [lwt_scheduler_init_state, LWT_MAX_WORKERS, schedOne]

/-- C2: in every scheduler state reachable from initialization by any
sequence of the runtime's critical sections (spawn, start, stop,
worker dispatch, yield, join, the two halves of sleep, and the
trampoline finish), a task is on the ready queue iff its state is
READY, and the ready queue contains no task twice. -/
theorem c2_ready_invariant (s : Sched) (h : Reach s) :
    (∀ id : TaskId, id ∈ s.queue ↔ s.stateOf id = some LwtState.READY) ∧
      s.queue.Nodup :=
  ⟨(inv_reach s h).i1, (inv_reach s h).nodup⟩

/-- C2 witness: the state reached by initializing a one-worker
scheduler and spawning task 0. -/
theorem c2_ready_invariant_witness :
    (∀ id : TaskId, id ∈ (lwt_create_state schedOne 0).queue ↔
      (lwt_create_state schedOne 0).stateOf id = some LwtState.READY) ∧
      (lwt_create_state schedOne 0).queue.Nodup :=
  c2_ready_invariant (lwt_create_state schedOne 0)
    (Reach.step schedOne (lwt_create_state schedOne 0)
      (Reach.init 1 schedOne init_state_one) (Step.spawn schedOne 0 rfl))
